import Mathlib

/-!
Verification of the free-text parsing core of the `pilka` stadiums scraper
(`pilka/utils/__init__.py`, `pilka/stadiums/__init__.py`, `pilka/stadiums/data.py`)
against its natural-language specification.

The Python code is shallowly embedded: pure helpers become Lean functions,
fallible Python code returns `Except PyExc` (distinguishing `ParsingError`,
which subclasses `ValueError`, from a plain `ValueError` and from `TypeError`),
Python `None` becomes `Option`, CPython `float` values arising here are exact
decimal fractions and are modelled as `Rat`, and Python `date` objects are a
structure carrying their own validity proof (CPython's constructor rejects
invalid dates).  All definitions are translated from the source files; the few
places where CPython library behaviour is modelled (e.g. `int()`, `float()`,
`date.fromisoformat`) carry comments saying exactly what is modelled.
-/

namespace Pilka

/-- Python exception kinds relevant to this code base.  `ParsingError` is a
subclass of `ValueError` in the source, so an `except ValueError` handler
catches both `.parsingError` and `.valueError`; an `except ParsingError`
handler catches only `.parsingError`. -/
inductive PyExc where
  | parsingError
  | valueError
  | typeError
  deriving DecidableEq, Repr

/-- Does an `except ValueError:` clause catch this exception? -/
def PyExc.caughtByValueError : PyExc → Bool
  | .parsingError => true
  | .valueError => true
  | .typeError => false

/-- Run `e`, turning a `ParsingError` into `none` (models
`try: ... except ParsingError: return None`).  Other exceptions propagate. -/
def catchParsingErr {α : Type} (e : Except PyExc α) : Except PyExc (Option α) :=
  match e with
  | .ok v => .ok (some v)
  | .error .parsingError => .ok none
  | .error ex => .error ex

/-- Run `e`, turning any `ValueError` (including `ParsingError`) into `none`
(models `try: ... except ValueError: return None`). -/
def catchValueErr {α : Type} (e : Except PyExc α) : Except PyExc (Option α) :=
  match e with
  | .ok v => .ok (some v)
  | .error ex => if ex.caughtByValueError then .ok none else .error ex

/-- Like `catchValueErr`, for code of the shape
`try: x = f() except ValueError: x = None` where `f` itself returns an
optional value: any `ValueError` collapses to `none`. -/
def catchValueErrOpt {α : Type} (e : Except PyExc (Option α)) :
    Except PyExc (Option α) :=
  match e with
  | .ok v => .ok v
  | .error ex => if ex.caughtByValueError then .ok none else .error ex

/-! ## Python string primitives

All operations are implemented structurally on `List Char` (rather than with
the byte-position-based core `String` functions, which use well-founded
recursion) so that every concrete claim instance evaluates in the kernel.
They mirror CPython `str` methods. -/

/-- Does `l` start with `pat`? -/
def listStartsWith : List Char → List Char → Bool
  | _, [] => true
  | [], _ :: _ => false
  | c :: cs, p :: ps => c = p && listStartsWith cs ps

/-- Split `l` on every (non-overlapping, leftmost-first) occurrence of the
nonempty separator `sep`; the first argument is recursion fuel, always called
with `l.length` so it never runs out (`sep` consumes at least one char). -/
def listSplitOn (sep : List Char) : Nat → List Char → List (List Char)
  | _, [] => [[]]
  | 0, l => [l]
  | fuel + 1, c :: cs =>
    if listStartsWith (c :: cs) sep then
      [] :: listSplitOn sep fuel ((c :: cs).drop sep.length)
    else
      match listSplitOn sep fuel cs with
      | p :: ps => (c :: p) :: ps
      | [] => [[c]]

/-- Python `s.split(sep)` for a nonempty `sep` (the only case reachable
here); with the convention `pySplitOn s "" = [s]`. -/
def pySplitOn (s sep : String) : List String :=
  if sep = "" then [s]
  else (listSplitOn sep.data s.data.length s.data).map (⟨·⟩)

/-- Python `sub in s` (substring containment; the empty string is a
substring of everything). -/
def pyIn (sub s : String) : Bool :=
  if sub = "" then true else (pySplitOn s sub).length != 1

/-- Python `"sep".join(parts)`. -/
def pyJoin (sep : String) (parts : List String) : String :=
  ⟨(List.intersperse sep.data (parts.map (·.data))).flatten⟩

/-- Python `s.partition(sep)`: split at the first occurrence of `sep`,
returning `(before, sep, after)`, or `(s, "", "")` when absent. -/
def pyPartition (s sep : String) : String × String × String :=
  match pySplitOn s sep with
  | [] => (s, "", "")
  | [_] => (s, "", "")
  | x :: rest => (x, sep, pyJoin sep rest)

/-- Python `s.removeprefix(p)`. -/
def pyRemoveLead (s p : String) : String :=
  if listStartsWith s.data p.data then ⟨s.data.drop p.length⟩ else s

/-- Python `s.removesuffix(p)`. -/
def pyRemoveTrail (s p : String) : String :=
  if listStartsWith s.data.reverse p.data.reverse then
    ⟨s.data.take (s.length - p.length)⟩
  else s

/-- Python `s.endswith(p)`. -/
def pyEndsWith (s p : String) : Bool := listStartsWith s.data.reverse p.data.reverse

/-- Python `s.strip()` (the texts handled here only carry ASCII whitespace,
all covered by `Char.isWhitespace`). -/
def pyStrip (s : String) : String :=
  ⟨((s.data.dropWhile Char.isWhitespace).reverse.dropWhile Char.isWhitespace).reverse⟩

/-- Split at every char satisfying `p` (pieces may be empty). -/
def listSplitPred (p : Char → Bool) : List Char → List (List Char)
  | [] => [[]]
  | c :: cs =>
    if p c then [] :: listSplitPred p cs
    else
      match listSplitPred p cs with
      | q :: qs => (c :: q) :: qs
      | [] => [[c]]

/-- Python `s.split()`: split on whitespace, dropping empty pieces. -/
def pySplitWs (s : String) : List String :=
  ((listSplitPred Char.isWhitespace s.data).map (⟨·⟩)).filter (· ≠ "")

/-- Python `s.count(sub)` (non-overlapping occurrences). -/
def pyCount (s sub : String) : Nat := (pySplitOn s sub).length - 1

/-- Python `s.index(sub)`: character index of the first occurrence of a
substring, raising `ValueError` when absent. -/
def pyIndex (s sub : String) : Except PyExc Nat :=
  match pySplitOn s sub with
  | [] => .error .valueError
  | [_] => .error .valueError
  | x :: _ => .ok x.length

/-- Python `s.replace(pat, rep)` for nonempty `pat`: replace every
non-overlapping, leftmost-first occurrence.  Fuel as in `listSplitOn`. -/
def listReplace (pat rep : List Char) : Nat → List Char → List Char
  | _, [] => []
  | 0, l => l
  | fuel + 1, c :: cs =>
    if listStartsWith (c :: cs) pat then
      rep ++ listReplace pat rep fuel ((c :: cs).drop pat.length)
    else c :: listReplace pat rep fuel cs

/-- Python `s.replace(pat, rep)` (`pat` is always nonempty here). -/
def pyReplace (s pat rep : String) : String :=
  if pat = "" then s
  else ⟨listReplace pat.data rep.data s.data.length s.data⟩

/-! ## CPython `int()` and `float()` on strings -/

/-- Value of a nonempty digit run. -/
def digitsToNat (cs : List Char) : Nat :=
  cs.foldl (fun acc c => acc * 10 + (c.toNat - '0'.toNat)) 0

/-- CPython decimal-integer-literal body: digits optionally grouped by single
underscores placed between digits (`"1_99"` is valid, `"1__9"`, `"_1"`, `"1_"`
are not).  Returns the digit run with underscores removed. -/
def pyIntDigits : List Char → Option (List Char)
  | [] => none
  | [c] => if c.isDigit then some [c] else none
  | c :: c2 :: rest =>
    if c.isDigit then
      if c2 = '_' then (pyIntDigits rest).map (c :: ·)
      else (pyIntDigits (c2 :: rest)).map (c :: ·)
    else none

/-- CPython `int(s)` on a stripped string: optional sign, then a decimal
literal body.  Raises `ValueError` otherwise. -/
def pyIntOfString (s : String) : Except PyExc Int :=
  let t := (pyStrip s).data
  match t with
  | '-' :: rest =>
    match pyIntDigits rest with
    | some ds => .ok (-(digitsToNat ds : Int))
    | none => .error .valueError
  | '+' :: rest =>
    match pyIntDigits rest with
    | some ds => .ok (digitsToNat ds : Int)
    | none => .error .valueError
  | _ =>
    match pyIntDigits t with
    | some ds => .ok (digitsToNat ds : Int)
    | none => .error .valueError

/-- The CPython `float` values arising in this code base all come from
digit-and-period strings, so they are non-negative exact decimal fractions;
they are embedded as `num / 10 ^ exp` (binary-float64 rounding is not
modelled: every multiplication performed on them here is by a power of ten,
kept exact). -/
structure PyFloat where
  num : Nat
  exp : Nat
  deriving DecidableEq, Repr

/-- CPython `float(s)` restricted to the shapes reachable here: the argument
is always a string of digits and periods (commas were substituted away), so
the accepted grammar is `digits ["." digits]` with at least one digit and at
most one period — `"1."`, `".5"`, `"45"` parse, `""`, `"."`, `"1.2.3"` raise
`ValueError`. -/
def pyFloatOfString (s : String) : Except PyExc PyFloat :=
  let cs := s.data
  if cs.all (fun c => c.isDigit || c = '.') ∧
     (cs.filter (· = '.')).length ≤ 1 ∧
     (cs.filter Char.isDigit).length ≥ 1 then
    match pySplitOn s "." with
    | [intPart] => .ok ⟨digitsToNat intPart.data, 0⟩
    | [intPart, fracPart] =>
      .ok ⟨digitsToNat intPart.data * 10 ^ fracPart.length + digitsToNat fracPart.data,
        fracPart.length⟩
    | _ => .error .valueError
  else .error .valueError

/-- Multiplication of such a float by a natural number (used only with the
powers of ten `10^6`, `10^9`, `10^12`, where float64 multiplication of these
magnitudes matches the exact value after the truncation below). -/
def pyFloatMulNat (f : PyFloat) (n : Nat) : PyFloat := ⟨f.num * n, f.exp⟩

/-- CPython `int(x)` on such a (non-negative) float: truncation. -/
def pyTrunc (f : PyFloat) : Int := ((f.num / 10 ^ f.exp : Nat) : Int)

/-! ## `pilka.utils`: primitive extractors -/

/-- `pilka/utils/__init__.py`, `extract_float`:

    num = "".join([char for char in text if char.isdigit() or char in ",."])
    if not num:
        raise ParsingError(...)
    return float(num.replace(",", "."))
-/
def extract_float (text : String) : Except PyExc PyFloat :=
  let num : String := ⟨text.data.filter (fun c => c.isDigit || c = ',' || c = '.')⟩
  if num = "" then .error .parsingError
  else pyFloatOfString (pyReplace num "," ".")

/-- `pilka/utils/__init__.py`, `extract_int`:

    num = "".join([char for char in text if char.isdigit()])
    if not num:
        raise ParsingError(...)
    return int(num)
-/
def extract_int (text : String) : Except PyExc Int :=
  let num : String := ⟨text.data.filter Char.isDigit⟩
  if num = "" then .error .parsingError
  else .ok (digitsToNat num.data : Int)

/-! ## CPython `datetime.date`

A `datetime.date` is always valid by construction (the constructor raises
`ValueError` on out-of-range components, with `MINYEAR = 1`, `MAXYEAR = 9999`,
proleptic Gregorian calendar), so the embedding carries the validity proof. -/

def isLeapYear (y : Nat) : Bool := y % 4 = 0 && (y % 100 ≠ 0 || y % 400 = 0)

def daysInMonth (y m : Nat) : Nat :=
  if m = 2 then (if isLeapYear y then 29 else 28)
  else if m = 4 ∨ m = 6 ∨ m = 9 ∨ m = 11 then 30
  else 31

def validDate (y m d : Nat) : Bool :=
  1 ≤ y && y ≤ 9999 && 1 ≤ m && m ≤ 12 && 1 ≤ d && d ≤ daysInMonth y m

structure PyDate where
  year : Nat
  month : Nat
  day : Nat
  valid : validDate year month day = true
  deriving Repr

theorem PyDate.ext_iff {a b : PyDate} :
    a = b ↔ a.year = b.year ∧ a.month = b.month ∧ a.day = b.day := by
  constructor
  · intro h; subst h; exact ⟨rfl, rfl, rfl⟩
  · rcases a with ⟨ya, ma, da, va⟩
    rcases b with ⟨yb, mb, db, vb⟩
    rintro ⟨h1, h2, h3⟩
    subst h1; subst h2; subst h3
    rfl

instance : DecidableEq PyDate := fun a b =>
  decidable_of_iff (a.year = b.year ∧ a.month = b.month ∧ a.day = b.day)
    PyDate.ext_iff.symm

/-- The `datetime.date(y, m, d)` constructor on integer arguments. -/
def mkDate (y m d : Int) : Except PyExc PyDate :=
  if y < 0 ∨ m < 0 ∨ d < 0 then .error .valueError
  else if h : validDate y.toNat m.toNat d.toNat then .ok ⟨y.toNat, m.toNat, d.toNat, h⟩
  else .error .valueError

/-- Python `date` comparison encoded through `y * 10000 + m * 100 + d`
(faithful to CPython's lexicographic `(year, month, day)` ordering because a
valid date has `month ≤ 12` and `day ≤ 31`). -/
def PyDate.key (d : PyDate) : Nat := d.year * 10000 + d.month * 100 + d.day

/-- Python `a <= b` on dates. -/
def dateLe (a b : PyDate) : Bool := a.key ≤ b.key

/-- Python `a < b` on dates. -/
def dateLt (a b : PyDate) : Bool := a.key < b.key

def digitToChar : Nat → Char
  | 0 => '0' | 1 => '1' | 2 => '2' | 3 => '3' | 4 => '4'
  | 5 => '5' | 6 => '6' | 7 => '7' | 8 => '8' | _ => '9'

/-- The numeric value of an ASCII digit character (the digit check of
`date.fromisoformat`), `none` on a non-digit. -/
def charVal (c : Char) : Option Nat :=
  if 48 ≤ c.toNat ∧ c.toNat ≤ 57 then some (c.toNat - 48) else none

/-- `date.isoformat()`: `YYYY-MM-DD` with zero padding (year has at most four
digits because valid years are `1..9999`). -/
def isoFormat (d : PyDate) : String :=
  ⟨[digitToChar (d.year / 1000 % 10), digitToChar (d.year / 100 % 10),
    digitToChar (d.year / 10 % 10), digitToChar (d.year % 10), '-',
    digitToChar (d.month / 10 % 10), digitToChar (d.month % 10), '-',
    digitToChar (d.day / 10 % 10), digitToChar (d.day % 10)]⟩

/-! ### `date.fromisoformat` as in CPython >= 3.11

The program requires Python >= 3.11 (`typing.Self` is imported by
`pilka/utils/scrape/__init__.py`, pulled in unconditionally by
`pilka.stadiums`), where `date.fromisoformat` accepts any ISO 8601 date
except ordinal dates: `YYYY-MM-DD`, the compact `YYYYMMDD`, and the ISO week
forms `YYYY-Www[-D]` / `YYYYWww[D]`.  The C implementation
(`date_fromisoformat` in `Modules/_datetimemodule.c`) gates on the UTF-8
*byte* length being 7, 8 or 10 and then parses bytes left to right; parsing
characters instead is equivalent because every examined byte must be an
ASCII digit, `-` or `W` for the parse to succeed, so byte- and
character-level parsing fail at the same position, and unexamined trailing
bytes (the length-10 no-separator forms ignore trailing input) never
matter.  Any failure, including an out-of-range `date()` constructor call,
raises `ValueError`, modelled by `none`. -/

/-- UTF-8 byte size of one scalar value. -/
def charUtf8Size (c : Char) : Nat :=
  if c.toNat ≤ 0x7F then 1 else if c.toNat ≤ 0x7FF then 2
  else if c.toNat ≤ 0xFFFF then 3 else 4

/-- UTF-8 byte length of a string's character list. -/
def utf8Length : List Char → Nat
  | [] => 0
  | c :: cs => charUtf8Size c + utf8Length cs

/-- `days_before_year` of `_datetimemodule.c` (proleptic Gregorian). -/
def daysBeforeYear (y : Nat) : Nat :=
  (y - 1) * 365 + (y - 1) / 4 - (y - 1) / 100 + (y - 1) / 400

/-- The `_days_before_month` table of `_datetimemodule.c` (cumulative days
before the month in a non-leap year). -/
def daysBeforeMonthTbl (m : Nat) : Nat :=
  if m = 2 then 31 else if m = 3 then 59 else if m = 4 then 90
  else if m = 5 then 120 else if m = 6 then 151 else if m = 7 then 181
  else if m = 8 then 212 else if m = 9 then 243 else if m = 10 then 273
  else if m = 11 then 304 else if m = 12 then 334 else 0

/-- `ord_to_ymd` of `_datetimemodule.c`: proleptic-Gregorian ordinal (day 1 =
0001-01-01) to `(year, month, day)`. -/
def ordToYmd (ordinal : Nat) : Nat × Nat × Nat :=
  let o := ordinal - 1
  let n400 := o / 146097
  let r400 := o % 146097
  let n100 := r400 / 36524
  let r100 := r400 % 36524
  let n4 := r100 / 1461
  let r4 := r100 % 1461
  let n1 := r4 / 365
  let n := r4 % 365
  let year := n400 * 400 + 1 + n100 * 100 + n4 * 4 + n1
  if n1 = 4 ∨ n100 = 4 then (year - 1, 12, 31)
  else
    let leap := n1 = 3 ∧ (¬ n4 = 24 ∨ n100 = 3)
    let month := (n + 50) / 32
    let preceding := daysBeforeMonthTbl month + (if 2 < month ∧ leap then 1 else 0)
    if n < preceding then
      (year, month - 1, n - (preceding - daysInMonth year (month - 1)) + 1)
    else (year, month, n - preceding + 1)

/-- `weekday(year, 1, 1)` of `_datetimemodule.c` (0 = Monday). -/
def jan1Weekday (y : Nat) : Nat := (daysBeforeYear y + 1 + 6) % 7

/-- `iso_week1_monday` of `_datetimemodule.c`: ordinal of the Monday starting
ISO week 1 of `y`. -/
def isoWeek1Monday (y : Nat) : Nat :=
  let firstDay := daysBeforeYear y + 1
  let firstWeekday := (firstDay + 6) % 7
  let w1m := firstDay - firstWeekday
  if 3 < firstWeekday then w1m + 7 else w1m

/-- `iso_to_ymd` of `_datetimemodule.c` (week 53 only in years starting
Thursday, or leap years starting Wednesday), then the `date` constructor's
range check.  An ISO year `0` always drives the constructor out of range
(verified against CPython 3.11 for every week/day), hence `none`. -/
def isoWeekToDate (isoYear week day : Nat) : Option PyDate :=
  if isoYear = 0 then none
  else if ¬ ((1 ≤ week ∧ week ≤ 52) ∨
      (week = 53 ∧ (jan1Weekday isoYear = 3 ∨
        (jan1Weekday isoYear = 2 ∧ isLeapYear isoYear = true)))) then none
  else if ¬ (1 ≤ day ∧ day ≤ 7) then none
  else
    match ordToYmd (isoWeek1Monday isoYear + (week - 1) * 7 + (day - 1)) with
    | (yy, mm, dd) =>
      if hv : validDate yy mm dd then some ⟨yy, mm, dd, hv⟩ else none

/-- The `YYYY-?Www-?D?` tail of `parse_isoformat_date` (trailing input after
the single day digit is ignored, as in the C code). -/
def isoWeekTail (year : Nat) (hasSep : Bool) (rest : List Char) :
    Option PyDate :=
  match rest with
  | w1 :: w2 :: rest2 => do
    let a ← charVal w1
    let b ← charVal w2
    match rest2 with
    | [] => isoWeekToDate year (10 * a + b) 1
    | _ => do
      let rest3 ← (if hasSep then
          match rest2 with
          | '-' :: r => some r
          | _ => none
        else some rest2)
      match rest3 with
      | dc :: _ => do
        let dv ← charVal dc
        isoWeekToDate year (10 * a + b) dv
      | [] => none
  | _ => none

/-- The month/day tail of `parse_isoformat_date` (separator use must be
consistent; trailing input after the two day digits is ignored, as in the C
code). -/
def isoMonthTail (year : Nat) (hasSep : Bool) (rest : List Char) :
    Option PyDate :=
  match rest with
  | m1 :: m2 :: rest2 => do
    let f ← charVal m1
    let g ← charVal m2
    let rest3 ← (if hasSep then
        match rest2 with
        | '-' :: r => some r
        | _ => none
      else some rest2)
    match rest3 with
    | d1 :: d2 :: _ => do
      let h ← charVal d1
      let i ← charVal d2
      let mo := 10 * f + g
      let dd := 10 * h + i
      if hv : validDate year mo dd then some ⟨year, mo, dd, hv⟩ else none
    | _ => none
  | _ => none

/-- After the year and optional separator: the `W` dispatch of
`parse_isoformat_date`. -/
def isoFromSep (year : Nat) (hasSep : Bool) (rest : List Char) :
    Option PyDate :=
  match rest with
  | c :: rest2 =>
    if c = 'W' then isoWeekTail year hasSep rest2
    else isoMonthTail year hasSep (c :: rest2)
  | [] => none

/-- After the four year digits: record whether position 4 is a dash (the
`uses_separator` flag of `parse_isoformat_date`). -/
def isoFromYear (year : Nat) (rest : List Char) : Option PyDate :=
  match rest with
  | '-' :: rest2 => isoFromSep year true rest2
  | _ => isoFromSep year false rest

/-- `parse_isoformat_date`: four year digits, then the week or month/day
tail. -/
def isoParse (cs : List Char) : Option PyDate :=
  match cs with
  | y1 :: y2 :: y3 :: y4 :: rest => do
    let a ← charVal y1
    let b ← charVal y2
    let c ← charVal y3
    let e ← charVal y4
    isoFromYear (1000 * a + 100 * b + 10 * c + e) rest
  | _ => none

/-- `date.fromisoformat` as in CPython >= 3.11: the 7/8/10 UTF-8 byte-length
gate, then `parse_isoformat_date`; `none` models the raised `ValueError`. -/
def dateFromIso (s : String) : Option PyDate :=
  if utf8Length s.data = 7 ∨ utf8Length s.data = 8 ∨ utf8Length s.data = 10
  then isoParse s.data
  else none

/-- `pilka/utils/__init__.py`, `extract_date`.  The separator stack
`["/", ".", "-"]` is popped from the end, so `"-"` is tried first, then `"."`,
then `"/"`.  The final `int(...)` conversions sit in a
`try/except ValueError: raise ParsingError`, while the `date(...)` call is
outside it, so an out-of-range date raises a plain `ValueError`. -/
def extract_date (text : String) (monthInTheMiddle : Bool := true) :
    Except PyExc PyDate := do
  let sep : Option Char :=
    if pyIn "-" text then some '-'
    else if pyIn "." text then some '.'
    else if pyIn "/" text then some '/'
    else none
  let datestr : String := ⟨text.data.filter (fun c => c.isDigit || some c = sep)⟩
  if datestr = "" then Except.error PyExc.parsingError
  else do
    let tokens : List String ←
      if datestr.length = 4 then pure [datestr]
      else
        match sep with
        | none => Except.error PyExc.parsingError
        | some c => pure (pySplitOn datestr ⟨[c]⟩)
    let (ys, ms, ds) ←
      match tokens with
      | [first, second, third] =>
        if first.length = 4 then
          let (y, m, d) := (first, second, third)
          pure (if monthInTheMiddle then (y, m, d) else (y, d, m))
        else if third.length = 4 then
          let (y, m, d) := (third, second, first)
          pure (if monthInTheMiddle then (y, m, d) else (y, d, m))
        else Except.error PyExc.parsingError
      | [first, second] =>
        if first.length = 4 then pure (first, second, "1")
        else if second.length = 4 then pure (second, first, "1")
        else Except.error PyExc.parsingError
      | [only] => pure (only, "1", "1")
      | _ => Except.error PyExc.parsingError
    let nums : Except PyExc (Int × Int × Int) := do
      let yi ← pyIntOfString ys
      let mi ← pyIntOfString ms
      let di ← pyIntOfString ds
      pure (yi, mi, di)
    match nums with
    | .error e =>
      if e.caughtByValueError then Except.error PyExc.parsingError
      else Except.error e
    | .ok (yi, mi, di) => mkDate yi mi di

/-! ## Claim C2: the primitive extractors on formatted numeric strings -/

theorem filter_eq_nil_of_all_not {p : Char → Bool} {l : List Char}
    (h : (l.all fun c => !p c) = true) : l.filter p = [] := by
  rw [List.filter_eq_nil_iff]
  intro a ha
  have := List.all_eq_true.mp h a ha
  simpa using this

/-- C2 counterexample: contrary to the claim, `extract_float "1,234.5"` does
not return `1234.5` — the comma→period substitution produces `"1.234.5"`,
which `float()` rejects with a plain `ValueError`; and on the digit-free
input `"."` `extract_float` raises `ValueError`, not `ParsingError`. -/
theorem extract_float_formatted_counterexample :
    extract_float "1,234.5" = .error .valueError ∧
    extract_float "." = .error .valueError := by
  constructor <;> rfl

/-- C2 (amended): `extract_int "12 000 zł" = 12000`; `extract_float "1,234.5"`
raises `ValueError`; `extract_int` raises `ParsingError` on every digit-free
string; `extract_float` raises `ParsingError` on every string free of digits,
commas and periods (digit-free strings that do contain `,` or `.`, such as
`"."`, make `float()` raise a plain `ValueError` instead). -/
theorem extract_num_amended_spec :
    extract_int "12 000 zł" = .ok 12000 ∧
    extract_float "1,234.5" = .error .valueError ∧
    extract_float "." = .error .valueError ∧
    (∀ s : String, (s.data.all fun c => !c.isDigit) = true →
      extract_int s = .error .parsingError) ∧
    (∀ s : String, (s.data.all fun c => !(c.isDigit || c = ',' || c = '.')) = true →
      extract_float s = .error .parsingError) := by
  refine ⟨rfl, rfl, rfl, ?_, ?_⟩
  · intro s h
    have hf : s.data.filter Char.isDigit = [] := filter_eq_nil_of_all_not h
    simp [extract_int, hf]
  · intro s h
    have hf : s.data.filter (fun c => c.isDigit || c = ',' || c = '.') = [] :=
      filter_eq_nil_of_all_not h
    simp [extract_float, hf]

/-- Witness for `extract_num_amended_spec` at the claim's example `"n/a"`. -/
theorem extract_num_amended_spec_witness :
    extract_int "n/a" = .error .parsingError ∧
    extract_float "n/a" = .error .parsingError :=
  ⟨extract_num_amended_spec.2.2.2.1 "n/a" (by decide),
   extract_num_amended_spec.2.2.2.2 "n/a" (by decide)⟩

/-! ## `pilka.stadiums.data`: `Duration`, and `pilka.stadiums`:
`DetailsScraper._parse_duration` -/

/-- `pilka/stadiums/data.py`, `Duration` (frozen dataclass).  The source field
`end` is a Lean keyword, rendered here as `endDate`. -/
structure Duration where
  start : PyDate
  endDate : PyDate
  deriving DecidableEq, Repr

/-- The runtime type of `_parse_duration`'s successful result: a single
`datetime.date` or a `Duration`. -/
inductive DateOr where
  | d (x : PyDate)
  | dur (u : Duration)
  deriving DecidableEq, Repr

/-- `pilka/stadiums/__init__.py`, `DetailsScraper._parse_duration`.

`DURATION_SEPARATORS = "-", "/"` and `from_iterable` picks the first
separator contained in the text.  The `int(first), int(second)` conversions
sit in a `try/except ValueError` (which returns `None`), but the
`date(start, 1, 1)` constructions do not, so a year outside `1..9999` raises
`ValueError` out of the function.  The final two-sided `extract_date` attempt
catches only `ParsingError`. -/
def parse_duration (text : String) : Except PyExc (Option DateOr) := do
  let sep : Option String :=
    if pyIn "-" text then some "-"
    else if pyIn "/" text then some "/"
    else none
  match sep with
  | none => (catchParsingErr (extract_date text)).map (·.map .d)
  | some sp =>
    if sp = "/" ∧ (text.length = 7 ∨ text.length = 10) then
      (catchParsingErr (extract_date text)).map (·.map .d)
    else
      match pySplitOn text sp with
      | [first, second] =>
        let first := pyStrip first
        let second := pyStrip second
        if first.length = 4 ∧ (second.length = 2 ∨ second.length = 4) then
          let second := if second.length = 2 then ⟨first.data.take 2⟩ ++ second else second
          match pyIntOfString first, pyIntOfString second with
          | .ok start, .ok stop => do
            let d1 ← mkDate start 1 1
            let d2 ← mkDate stop 1 1
            pure (some (.dur ⟨d1, d2⟩))
          | _, _ => pure none
        else
          match extract_date first with
          | .error .parsingError => pure none
          | .error e => Except.error e
          | .ok d1 =>
            match extract_date second with
            | .error .parsingError => pure none
            | .error e => Except.error e
            | .ok d2 => pure (some (.dur ⟨d1, d2⟩))
      | _ => pure none

/-! ## Arithmetic facts about digit strings -/

theorem digit_val_bounds (c : Char) (h : c.isDigit = true) :
    c.toNat - '0'.toNat ≤ 9 ∧ '0'.toNat ≤ c.toNat := by
  simp [Char.isDigit] at h
  obtain ⟨h1, h2⟩ := h
  have h1' : (48 : UInt32).toNat ≤ c.val.toNat := h1
  have h2' : c.val.toNat ≤ (57 : UInt32).toNat := h2
  have e1 : (48 : UInt32).toNat = 48 := rfl
  have e2 : (57 : UInt32).toNat = 57 := rfl
  have e0 : '0'.toNat = 48 := rfl
  have ec : c.toNat = c.val.toNat := rfl
  omega

theorem digitsToNat_foldl_lt (l : List Char) (h : l.all Char.isDigit = true) :
    ∀ acc : Nat,
      l.foldl (fun acc c => acc * 10 + (c.toNat - '0'.toNat)) acc < (acc + 1) * 10 ^ l.length := by
  induction l with
  | nil => intro acc; simp
  | cons c cs ih =>
    intro acc
    simp only [List.all_cons, Bool.and_eq_true] at h
    have hd := (digit_val_bounds c h.1).1
    have step := ih h.2 (acc * 10 + (c.toNat - '0'.toNat))
    calc List.foldl _ (acc * 10 + (c.toNat - '0'.toNat)) cs
        < (acc * 10 + (c.toNat - '0'.toNat) + 1) * 10 ^ cs.length := step
      _ ≤ ((acc + 1) * 10) * 10 ^ cs.length := by
          apply Nat.mul_le_mul_right
          omega
      _ = (acc + 1) * 10 ^ (cs.length + 1) := by ring

theorem digitsToNat_lt (l : List Char) (h : l.all Char.isDigit = true) :
    digitsToNat l < 10 ^ l.length := by
  simpa [digitsToNat] using digitsToNat_foldl_lt l h 0

theorem digit_not_ws (c : Char) (h : c.isDigit = true) : c.isWhitespace = false := by
  cases hw : c.isWhitespace
  · rfl
  · exfalso
    simp [Char.isWhitespace] at hw
    simp [Char.isDigit] at h
    obtain ⟨h1, h2⟩ := h
    rcases hw with ((h' | h') | h') | h' <;> (subst h'; revert h1; decide)

theorem pyStrip_of_digits (s : String) (h : s.data.all Char.isDigit = true) :
    pyStrip s = s := by
  have hnw : ∀ l : List Char, l.all Char.isDigit = true →
      l.dropWhile Char.isWhitespace = l := by
    intro l hl
    cases l with
    | nil => rfl
    | cons c cs =>
      simp only [List.all_cons, Bool.and_eq_true] at hl
      rw [List.dropWhile_cons_of_neg (by simp [digit_not_ws c hl.1])]
  have h1 := hnw s.data h
  have h2 : s.data.reverse.all Char.isDigit = true := by
    simpa using h
  have h3 := hnw s.data.reverse h2
  simp [pyStrip, h1, h3]

theorem pyIntDigits_of_digits :
    ∀ l : List Char, l ≠ [] → l.all Char.isDigit = true → pyIntDigits l = some l := by
  intro l
  induction l with
  | nil => intro h; exact absurd rfl h
  | cons c cs ih =>
    intro _ hall
    simp only [List.all_cons, Bool.and_eq_true] at hall
    obtain ⟨hc, hcs⟩ := hall
    cases cs with
    | nil => simp [pyIntDigits, hc]
    | cons c2 rest =>
      have hc2 : c2.isDigit = true := by
        simp only [List.all_cons, Bool.and_eq_true] at hcs
        exact hcs.1
      have hne : c2 ≠ '_' := by
        intro h; rw [h] at hc2; simp at hc2
      have hrec := ih (by simp) hcs
      simp [pyIntDigits, hc, hne, hrec]

theorem pyIntOfString_of_digits (s : String) (hne : s.data ≠ [])
    (h : s.data.all Char.isDigit = true) :
    pyIntOfString s = .ok (digitsToNat s.data : Int) := by
  have hstrip : pyStrip s = s := pyStrip_of_digits s h
  have hdig := pyIntDigits_of_digits s.data hne h
  cases hd : s.data with
  | nil => exact absurd hd hne
  | cons c cs =>
    have hc : c.isDigit = true := by
      rw [hd] at h
      simp only [List.all_cons, Bool.and_eq_true] at h
      exact h.1
    have hcm : c ≠ '-' := by intro h'; rw [h'] at hc; simp at hc
    have hcp : c ≠ '+' := by intro h'; rw [h'] at hc; simp at hc
    rw [hd] at hdig
    simp only [pyIntOfString, hstrip, hd]
    split
    · next heq =>
      injection heq with h1 _
      exact absurd h1 hcm
    · next heq =>
      injection heq with h1 _
      exact absurd h1 hcp
    · rw [hdig, ← hd]

theorem mkDate_jan1 (y : Nat) (h1 : 1 ≤ y) (h2 : y ≤ 9999) :
    ∃ d : PyDate, d.year = y ∧ d.month = 1 ∧ d.day = 1 ∧
      mkDate (y : Int) 1 1 = .ok d := by
  have hv : validDate y 1 1 = true := by
    simp [validDate, daysInMonth]
    omega
  refine ⟨⟨y, 1, 1, hv⟩, rfl, rfl, rfl, ?_⟩
  simp only [mkDate]
  rw [if_neg (by omega)]
  have ht : ((y : Int).toNat) = y := Int.toNat_natCast y
  simp only [show ((1 : Int).toNat) = 1 from rfl, ht]
  rw [dif_pos hv]

/-- Core fact about the year-range branch of `_parse_duration`: when the text
splits on the detected separator into a 4-digit part and a 2- or 4-digit part
(with years in `date`'s accepted range `1..9999`), both parts are read as
years — a 2-digit end expanded with the first two digits of the start — and
the result is a Jan-1-to-Jan-1 duration. -/
theorem parse_duration_year_range_general
    (t a b sp : String)
    (hsep : (if pyIn "-" t then some "-" else if pyIn "/" t then some "/" else none)
      = some sp)
    (hslash : ¬(sp = "/" ∧ (t.length = 7 ∨ t.length = 10)))
    (hsplit : pySplitOn t sp = [a, b])
    (hda : ((pyStrip a).data.all Char.isDigit) = true)
    (hla : (pyStrip a).data.length = 4)
    (hdb : ((pyStrip b).data.all Char.isDigit) = true)
    (hlb : (pyStrip b).data.length = 2 ∨ (pyStrip b).data.length = 4)
    (y e : Nat)
    (hy : y = digitsToNat (pyStrip a).data)
    (he : e = digitsToNat (if (pyStrip b).data.length = 2
      then ((pyStrip a).data.take 2 ++ (pyStrip b).data) else (pyStrip b).data))
    (hy1 : 1 ≤ y) (he1 : 1 ≤ e) :
    ∃ d1 d2 : PyDate, d1.year = y ∧ d1.month = 1 ∧ d1.day = 1 ∧
      d2.year = e ∧ d2.month = 1 ∧ d2.day = 1 ∧
      parse_duration t = .ok (some (.dur ⟨d1, d2⟩)) := by
  have hy9999 : y ≤ 9999 := by
    have := digitsToNat_lt (pyStrip a).data hda
    rw [hla] at this
    omega
  have hedig : (if (pyStrip b).data.length = 2
      then ((pyStrip a).data.take 2 ++ (pyStrip b).data)
      else (pyStrip b).data).all Char.isDigit = true := by
    split
    · rw [List.all_append, Bool.and_eq_true]
      refine ⟨?_, hdb⟩
      rw [List.all_eq_true] at hda ⊢
      intro x hx
      exact hda x (List.mem_of_mem_take hx)
    · exact hdb
  have helen : (if (pyStrip b).data.length = 2
      then ((pyStrip a).data.take 2 ++ (pyStrip b).data)
      else (pyStrip b).data).length = 4 := by
    split
    · next h2 => simp [List.length_take, hla, h2]
    · next h2 => omega
  have he9999 : e ≤ 9999 := by
    have := digitsToNat_lt _ hedig
    rw [helen] at this
    omega
  obtain ⟨d1, hd1y, hd1m, hd1d, hmk1⟩ := mkDate_jan1 y hy1 hy9999
  obtain ⟨d2, hd2y, hd2m, hd2d, hmk2⟩ := mkDate_jan1 e he1 he9999
  refine ⟨d1, d2, hd1y, hd1m, hd1d, hd2y, hd2m, hd2d, ?_⟩
  have hane : (pyStrip a).data ≠ [] := by
    intro hnil; rw [hnil] at hla; simp at hla
  have hene : (if (pyStrip b).data.length = 2
      then ((pyStrip a).data.take 2 ++ (pyStrip b).data)
      else (pyStrip b).data) ≠ [] := by
    intro hnil
    rw [hnil] at helen
    simp at helen
  have hia : pyIntOfString (pyStrip a) = .ok (digitsToNat (pyStrip a).data : Int) :=
    pyIntOfString_of_digits _ hane hda
  simp only [parse_duration, hsep]
  rw [if_neg hslash, hsplit]
  simp only [String.length]
  rw [if_pos ⟨hla, hlb⟩]
  by_cases h2 : (pyStrip b).data.length = 2
  · rw [if_pos h2]
    have hdata : ((⟨(pyStrip a).data.take 2⟩ : String) ++ pyStrip b).data
        = (pyStrip a).data.take 2 ++ (pyStrip b).data := rfl
    have hib : pyIntOfString ((⟨(pyStrip a).data.take 2⟩ : String) ++ pyStrip b)
        = .ok (digitsToNat ((pyStrip a).data.take 2 ++ (pyStrip b).data) : Int) := by
      have := pyIntOfString_of_digits ((⟨(pyStrip a).data.take 2⟩ : String) ++ pyStrip b)
        (by rw [hdata]; rw [if_pos h2] at hene; exact hene)
        (by rw [hdata]; rw [if_pos h2] at hedig; exact hedig)
      rw [this, hdata]
    rw [hia, hib]
    rw [if_pos h2] at he
    rw [← hy, ← he]
    simp only [hmk1, hmk2]
    rfl
  · rw [if_neg h2]
    have h4 : (pyStrip b).data.length = 4 := by
      rcases hlb with h | h
      · exact absurd h h2
      · exact h
    have hbne : (pyStrip b).data ≠ [] := by
      intro hnil; rw [hnil] at h4; simp at h4
    have hib : pyIntOfString (pyStrip b) = .ok (digitsToNat (pyStrip b).data : Int) :=
      pyIntOfString_of_digits _ hbne (by rw [if_neg h2] at hedig; exact hedig)
    rw [hia, hib]
    rw [if_neg h2] at he
    rw [← hy, ← he]
    simp only [hmk1, hmk2]
    rfl

/-- C5: the duration paths of `_parse_duration`: `"1990-95"` parses to the
duration 1990-01-01 – 1995-01-01 and `"12.05.1980 - 20.07.1982"` to
1980-05-12 – 1982-07-20; and in general, when the text splits on the detected
separator into a 4-digit first part and a 2- or 4-digit second part (all
digits, denoting years in `date`'s range), both parts are treated as years —
a 2-digit end year expanded by prefixing the first two digits of the start
year — and the result is a duration from Jan 1 of the start year to Jan 1 of
the end year. -/
theorem parse_duration_examples_and_year_rule :
    parse_duration "1990-95"
      = .ok (some (.dur ⟨⟨1990, 1, 1, by decide⟩, ⟨1995, 1, 1, by decide⟩⟩)) ∧
    parse_duration "12.05.1980 - 20.07.1982"
      = .ok (some (.dur ⟨⟨1980, 5, 12, by decide⟩, ⟨1982, 7, 20, by decide⟩⟩)) ∧
    (∀ t a b sp : String,
      (if pyIn "-" t then some "-" else if pyIn "/" t then some "/" else none) = some sp →
      ¬(sp = "/" ∧ (t.length = 7 ∨ t.length = 10)) →
      pySplitOn t sp = [a, b] →
      ((pyStrip a).data.all Char.isDigit) = true →
      (pyStrip a).data.length = 4 →
      ((pyStrip b).data.all Char.isDigit) = true →
      (pyStrip b).data.length = 2 ∨ (pyStrip b).data.length = 4 →
      ∀ y e : Nat,
        y = digitsToNat (pyStrip a).data →
        e = digitsToNat (if (pyStrip b).data.length = 2
          then ((pyStrip a).data.take 2 ++ (pyStrip b).data) else (pyStrip b).data) →
        1 ≤ y → 1 ≤ e →
        ∃ d1 d2 : PyDate, d1.year = y ∧ d1.month = 1 ∧ d1.day = 1 ∧
          d2.year = e ∧ d2.month = 1 ∧ d2.day = 1 ∧
          parse_duration t = .ok (some (.dur ⟨d1, d2⟩))) := by
  refine ⟨by rfl, by rfl, ?_⟩
  intro t a b sp hsep hslash hsplit hda hla hdb hlb y e hy he hy1 he1
  exact parse_duration_year_range_general t a b sp hsep hslash hsplit hda hla hdb hlb
    y e hy he hy1 he1

/-- Witness for `parse_duration_examples_and_year_rule` at `"1990-95"`. -/
theorem parse_duration_examples_and_year_rule_witness :
    ∃ d1 d2 : PyDate, d1.year = 1990 ∧ d1.month = 1 ∧ d1.day = 1 ∧
      d2.year = 1995 ∧ d2.month = 1 ∧ d2.day = 1 ∧
      parse_duration "1990-95" = .ok (some (.dur ⟨d1, d2⟩)) :=
  parse_duration_examples_and_year_rule.2.2 "1990-95" "1990" "95" "-"
    (by rfl) (by decide) (by rfl) (by decide) (by decide) (by decide)
    (by decide) 1990 1995 (by decide) (by decide) (by decide) (by decide)

/-- C10: the compact year-range expansion `"YYYY<sep>NN"`: the end year is
`int(first two digits of YYYY ++ NN)`; consequently across a century boundary
the produced `Duration` can end strictly before it starts — `"1998-02"`
parses to Duration(1998-01-01, 1902-01-01), whose end precedes its start. -/
theorem parse_duration_two_digit_expansion :
    parse_duration "1998-02"
      = .ok (some (.dur ⟨⟨1998, 1, 1, by decide⟩, ⟨1902, 1, 1, by decide⟩⟩)) ∧
    dateLt ⟨1902, 1, 1, by decide⟩ ⟨1998, 1, 1, by decide⟩ = true ∧
    (∀ t a b sp : String,
      (if pyIn "-" t then some "-" else if pyIn "/" t then some "/" else none) = some sp →
      ¬(sp = "/" ∧ (t.length = 7 ∨ t.length = 10)) →
      pySplitOn t sp = [a, b] →
      ((pyStrip a).data.all Char.isDigit) = true →
      (pyStrip a).data.length = 4 →
      ((pyStrip b).data.all Char.isDigit) = true →
      (pyStrip b).data.length = 2 →
      ∀ y e : Nat,
        y = digitsToNat (pyStrip a).data →
        e = digitsToNat ((pyStrip a).data.take 2 ++ (pyStrip b).data) →
        1 ≤ y → 1 ≤ e →
        ∃ d1 d2 : PyDate, d1.year = y ∧ d2.year = e ∧
          parse_duration t = .ok (some (.dur ⟨d1, d2⟩))) := by
  refine ⟨by rfl, by decide, ?_⟩
  intro t a b sp hsep hslash hsplit hda hla hdb hl2 y e hy he hy1 he1
  obtain ⟨d1, d2, h1, _, _, h2, _, _, hpd⟩ :=
    parse_duration_year_range_general t a b sp hsep hslash hsplit hda hla hdb
      (Or.inl hl2) y e hy (by rw [if_pos hl2]; exact he) hy1 he1
  exact ⟨d1, d2, h1, h2, hpd⟩

/-- Witness for `parse_duration_two_digit_expansion` at `"1998-02"`. -/
theorem parse_duration_two_digit_expansion_witness :
    ∃ d1 d2 : PyDate, d1.year = 1998 ∧ d2.year = 1902 ∧
      parse_duration "1998-02" = .ok (some (.dur ⟨d1, d2⟩)) :=
  parse_duration_two_digit_expansion.2.2 "1998-02" "1998" "02" "-"
    (by rfl) (by decide) (by rfl) (by decide) (by decide) (by decide)
    (by decide) 1998 1902 (by decide) (by decide) (by decide) (by decide)

/-! ## `pilka.stadiums.data.Cost` and `pilka.stadiums._CostSubParser` -/

/-- `pilka/stadiums/data.py`, `Cost` (frozen dataclass).  The field is
annotated `currency: str` but dataclasses do not enforce annotations and the
parser passes `None` for a missing currency symbol, so the runtime type is
`str | None`, embedded as `Option String`. -/
structure Cost where
  amount : Int
  currency : Option String
  deriving DecidableEq, Repr

/-- `Cost.__add__`: raises `ValueError` when the currencies differ. -/
def costAdd (a b : Cost) : Except PyExc Cost :=
  if a.currency ≠ b.currency then .error .valueError
  else .ok ⟨a.amount + b.amount, a.currency⟩

def MILLION_QUALIFIERS : List String :=
  ["million", "mln", "M", "m", "milion", "Million", "millones"]

def BILLION_QUALIFIERS : List String :=
  ["billion", "bln", "B", "b", "N", "miliard", "mld"]

def TRILLION_QUALIFIERS : List String := ["trillion"]

def APPROXIMATORS : List String := ["approx. ", "app. ", "ok. "]

def COMPOUND_SEPARATORS : List String := [" + ", ", "]

def qualifiersAll : List String :=
  MILLION_QUALIFIERS ++ BILLION_QUALIFIERS ++ TRILLION_QUALIFIERS

/-- `_CostSubParser._prepare_text`. -/
def prepare_text (text : String) : String :=
  let text := (pyPartition text "(").1
  let text := (pyPartition (pyStrip text) " / ").1
  let text := pyStrip text
  match APPROXIMATORS.find? (fun a => listStartsWith text.data a.data) with
  | some approx => pyRemoveLead text approx
  | none => text

/-- Inner loop of `_CostSubParser._identify_qualifier`: first token (in
order) matching some qualifier (in order), by equality when `strict`,
otherwise by suffix; `(-1, "")` when none matches. -/
def identifyQualifierGo (strict : Bool) (i : Nat) : List String → Int × String
  | [] => (-1, "")
  | t :: rest =>
    match qualifiersAll.find? (fun q => if strict then t = q else pyEndsWith t q) with
    | some q => ((i : Int), q)
    | none => identifyQualifierGo strict (i + 1) rest

def identify_qualifier (strict : Bool) (tokens : List String) : Int × String :=
  identifyQualifierGo strict 0 tokens

/-- `_CostSubParser._get_qualified_amount`: `extract_float` then the
million/billion/trillion multiplier, truncated to `int`. -/
def get_qualified_amount (amount qualifier : String) : Except PyExc Int := do
  let base ← extract_float amount
  if qualifier ∈ MILLION_QUALIFIERS then pure (pyTrunc (pyFloatMulNat base 1000000))
  else if qualifier ∈ BILLION_QUALIFIERS then pure (pyTrunc (pyFloatMulNat base 1000000000))
  else pure (pyTrunc (pyFloatMulNat base 1000000000000))

/-- `_CostSubParser._split_merged`: split at the first digit
(`re.search(r"\d", text)`); `none` models the empty tuple returned when the
text has no digit. -/
def split_merged (text : String) : Option (String × String) :=
  let pre := text.data.takeWhile (fun c => ¬ c.isDigit)
  let suf := text.data.dropWhile (fun c => ¬ c.isDigit)
  if suf.isEmpty then none else some (⟨pre⟩, ⟨suf⟩)

/-- Python `s or None` on a string. -/
def strOrNone (s : String) : Option String := if s = "" then none else some s

/-- `_CostSubParser._handle_single_token` (operates on `self._text`).  The
qualified branch constructs the `Cost` outside any `try`, so exceptions from
`extract_float` propagate; the unqualified branch catches `ValueError`. -/
def handle_single_token (text : String) : Except PyExc (Option Cost) := do
  let (_, qualifier) := identify_qualifier false [text]
  let text2 := if qualifier ≠ "" then (⟨text.data.take (text.length - qualifier.length)⟩ : String)
    else text
  match split_merged text2 with
  | none => pure none
  | some (currency, amountStr) =>
    let currency := strOrNone currency
    if qualifier ≠ "" then do
      let amt ← get_qualified_amount amountStr qualifier
      pure (some ⟨amt, currency⟩)
    else
      match extract_int amountStr with
      | .ok n => pure (some ⟨n, currency⟩)
      | .error e => if e.caughtByValueError then pure none else Except.error e

/-- `_CostSubParser._handle_two_tokens_no_qualifier`. -/
def handle_two_tokens_no_qualifier (first second : String) :
    Except PyExc (Option Cost) := do
  let assignment : Option (String × String) :=
    if first.data.all (fun ch => ¬ ch.isDigit) then some (first, second)
    else if second.data.all (fun ch => ¬ ch.isDigit) then some (second, first)
    else none
  match assignment with
  | none => pure none
  | some (currency, amountStr) =>
    match extract_int amountStr with
    | .ok n => pure (some ⟨n, strOrNone currency⟩)
    | .error e => if e.caughtByValueError then pure none else Except.error e

/-- `_CostSubParser._handle_two_tokens_one_merged`: the non-qualifier token
is a merged currency+amount; constructed outside any `try`. -/
def handle_two_tokens_one_merged (first second : String) (qualifierIdx : Int)
    (qualifier : String) : Except PyExc (Option Cost) := do
  let merged := if qualifierIdx = 1 then first else second
  match split_merged merged with
  | none => pure none
  | some (currency, amountStr) => do
    let amt ← get_qualified_amount amountStr qualifier
    pure (some ⟨amt, strOrNone currency⟩)

/-- `_CostSubParser._handle_two_tokens`. -/
def handle_two_tokens (first second : String) : Except PyExc (Option Cost) := do
  let (idx, found) := identify_qualifier false [first, second]
  if idx = -1 then handle_two_tokens_no_qualifier first second
  else if found = first ∨ found = second then
    handle_two_tokens_one_merged first second idx found
  else
    let (amountStr, currency) := if idx = 0 then (first, second) else (second, first)
    match get_qualified_amount amountStr found with
    | .ok amt => pure (some ⟨amt, strOrNone currency⟩)
    | .error e => if e.caughtByValueError then pure none else Except.error e

/-- `_CostSubParser._handle_space_delimited_amount`: all tokens but the last
concatenated form the amount, the last is the currency. -/
def handle_space_delimited_amount (tokens : List String) :
    Except PyExc (Option Cost) := do
  let amountStr := String.join (tokens.dropLast)
  let currency := tokens.getLastD ""
  let attempt : Except PyExc Cost := do
    let amount ← extract_float amountStr
    pure ⟨pyTrunc amount, strOrNone currency⟩
  match attempt with
  | .ok c => pure (some c)
  | .error e => if e.caughtByValueError then pure none else Except.error e

/-- `_CostSubParser._handle_three_tokens`; the `Cost` construction is outside
any `try`, so `extract_float` exceptions propagate. -/
def handle_three_tokens (t0 t1 t2 : String) : Except PyExc (Option Cost) := do
  let (idx, found) := identify_qualifier true [t0, t1, t2]
  if idx = 1 then do
    let amt ← get_qualified_amount t0 found
    pure (some ⟨amt, strOrNone t2⟩)
  else if idx = 2 then do
    let amt ← get_qualified_amount t1 found
    pure (some ⟨amt, strOrNone t0⟩)
  else pure none

/-- One step of `_handle_compound_cost`'s accumulation: a parsed segment is
merged into the running sum; `compound += cost` sits in a
`try/except ValueError: pass`, so a currency mismatch keeps the old value. -/
def compoundStep (compound : Option Cost) (cost : Option Cost) :
    Except PyExc (Option Cost) :=
  match cost with
  | none => pure compound
  | some c =>
    match compound with
    | none => pure (some c)
    | some comp =>
      match costAdd comp c with
      | .ok c2 => pure (some c2)
      | .error e => if e.caughtByValueError then pure (some comp) else Except.error e

/-- `_CostSubParser.parse` (with `__init__`'s text preparation and
tokenization inlined, and the recursion of `_handle_compound_cost` made
explicit through fuel — each recursive call operates on a strict substring,
so any fuel of at least the text length suffices and `parse_cost` below
supplies it). -/
def parseCostFuel : Nat → String → Except PyExc (Option Cost)
  | 0, _ => .ok none
  | fuel + 1, rawText => do
    let text := prepare_text rawText
    let tokens := (pySplitWs text).map pyStrip
    if COMPOUND_SEPARATORS.any (fun sep => pyIn sep text) then
      let sep := if pyIn " + " text then " + " else ", "
      let parts := pySplitOn text sep
      parts.foldlM (fun compound t => do
          let cost ← parseCostFuel fuel t
          compoundStep compound cost)
        none
    else if tokens.length = 1 then handle_single_token text
    else if tokens.length = 2 then
      match tokens with
      | [first, second] => handle_two_tokens first second
      | _ => pure none
    else if tokens.length = 3 then
      match tokens with
      | [t0, t1, t2] => handle_three_tokens t0 t1 t2
      | _ => pure none
    else if 3 < tokens.length ∧ (tokens.getLastD "").data.all (fun ch => ¬ ch.isDigit) then
      handle_space_delimited_amount tokens
    else pure none

/-- `_CostSubParser(text).parse()`. -/
def parse_cost (text : String) : Except PyExc (Option Cost) :=
  parseCostFuel (text.length + 1) text

/-- C3: compound cost handling: the four specification examples evaluate as
claimed, and on the accumulation step a same-currency pair sums while a
currency-mismatched term is dropped (the `ValueError` from `Cost.__add__` is
swallowed) without failing the parse. -/
theorem parse_cost_compound_examples :
    parse_cost "€ 45 million" = .ok (some ⟨45000000, some "€"⟩) ∧
    parse_cost "45 mln zł" = .ok (some ⟨45000000, some "zł"⟩) ∧
    parse_cost "$10 million + $5 million" = .ok (some ⟨15000000, some "$"⟩) ∧
    parse_cost "$10 million + €5 million" = .ok (some ⟨10000000, some "$"⟩) ∧
    (∀ (a b : Int) (cur : Option String),
      compoundStep (some ⟨a, cur⟩) (some ⟨b, cur⟩) = .ok (some ⟨a + b, cur⟩)) ∧
    (∀ comp c : Cost, comp.currency ≠ c.currency →
      compoundStep (some comp) (some c) = .ok (some comp)) := by
  refine ⟨by rfl, by rfl, by rfl, by rfl, ?_, ?_⟩
  · intro a b cur
    simp [compoundStep, costAdd, pure, Except.pure]
  · intro comp c h
    simp [compoundStep, costAdd, h, PyExc.caughtByValueError, pure, Except.pure]

/-- Witness for `parse_cost_compound_examples` at the mismatched pair from
the `"$10 million + €5 million"` example. -/
theorem parse_cost_compound_examples_witness :
    compoundStep (some ⟨10000000, some "$"⟩) (some ⟨5000000, some "€"⟩)
      = .ok (some ⟨10000000, some "$"⟩) :=
  parse_cost_compound_examples.2.2.2.2.2 ⟨10000000, some "$"⟩ ⟨5000000, some "€"⟩
    (by decide)

/-! ## Claim C7: the invariant actually maintained by the cost parser -/

/-- The invariant every parsed `Cost` satisfies: non-negative amount, and a
currency that is never the empty string (though it may be absent). -/
def CostOk (c : Cost) : Prop := 0 ≤ c.amount ∧ c.currency ≠ some ""

def CostOkOpt (o : Option Cost) : Prop := ∀ c ∈ o, CostOk c

theorem strOrNone_ne_empty (s : String) : strOrNone s ≠ some "" := by
  by_cases h : s = "" <;> simp [strOrNone, h]

theorem extract_int_nonneg (s : String) (n : Int)
    (h : extract_int s = .ok n) : 0 ≤ n := by
  simp only [extract_int] at h
  split at h
  · cases h
  · cases h
    positivity

theorem pyTrunc_nonneg (f : PyFloat) : 0 ≤ pyTrunc f := Int.ofNat_nonneg _

theorem get_qualified_amount_nonneg (a q : String) (n : Int)
    (h : get_qualified_amount a q = .ok n) : 0 ≤ n := by
  simp only [get_qualified_amount, bind, Except.bind] at h
  split at h
  · cases h
  · split at h
    · cases h
      exact pyTrunc_nonneg _
    · split at h
      · cases h
        exact pyTrunc_nonneg _
      · cases h
        exact pyTrunc_nonneg _

theorem handle_single_token_ok (t : String) (c : Cost)
    (h : handle_single_token t = .ok (some c)) : CostOk c := by
  simp only [handle_single_token] at h
  split at h
  · simp [pure, Except.pure] at h
  · split at h
    · simp only [bind, Except.bind] at h
      split at h
      · cases h
      · next heq =>
        simp only [pure, Except.pure] at h
        cases h
        exact ⟨get_qualified_amount_nonneg _ _ _ heq, strOrNone_ne_empty _⟩
    · split at h
      · next heq =>
        simp only [pure, Except.pure] at h
        cases h
        exact ⟨extract_int_nonneg _ _ heq, strOrNone_ne_empty _⟩
      · split at h
        · simp [pure, Except.pure] at h
        · cases h

theorem handle_two_tokens_no_qualifier_ok (a b : String) (c : Cost)
    (h : handle_two_tokens_no_qualifier a b = .ok (some c)) : CostOk c := by
  simp only [handle_two_tokens_no_qualifier] at h
  split at h
  · simp [pure, Except.pure] at h
  · split at h
    · next heq =>
      simp only [pure, Except.pure] at h
      cases h
      exact ⟨extract_int_nonneg _ _ heq, strOrNone_ne_empty _⟩
    · split at h
      · simp [pure, Except.pure] at h
      · cases h

theorem handle_two_tokens_one_merged_ok (a b : String) (i : Int) (q : String) (c : Cost)
    (h : handle_two_tokens_one_merged a b i q = .ok (some c)) : CostOk c := by
  simp only [handle_two_tokens_one_merged] at h
  split at h
  · simp [pure, Except.pure] at h
  · simp only [bind, Except.bind] at h
    split at h
    · cases h
    · next heq =>
      simp only [pure, Except.pure] at h
      cases h
      exact ⟨get_qualified_amount_nonneg _ _ _ heq, strOrNone_ne_empty _⟩

theorem handle_two_tokens_ok (a b : String) (c : Cost)
    (h : handle_two_tokens a b = .ok (some c)) : CostOk c := by
  simp only [handle_two_tokens] at h
  split at h
  · exact handle_two_tokens_no_qualifier_ok _ _ _ h
  · split at h
    · exact handle_two_tokens_one_merged_ok _ _ _ _ _ h
    · split at h
      · next heq =>
        simp only [pure, Except.pure] at h
        cases h
        exact ⟨get_qualified_amount_nonneg _ _ _ heq, strOrNone_ne_empty _⟩
      · split at h
        · simp [pure, Except.pure] at h
        · cases h

theorem handle_space_delimited_amount_ok (ts : List String) (c : Cost)
    (h : handle_space_delimited_amount ts = .ok (some c)) : CostOk c := by
  simp only [handle_space_delimited_amount] at h
  split at h
  · next c1 heq =>
    simp only [pure, Except.pure, Except.ok.injEq, Option.some.injEq] at h
    subst h
    simp only [bind, Except.bind] at heq
    split at heq
    · cases heq
    · simp only [pure, Except.pure, Except.ok.injEq] at heq
      subst heq
      exact ⟨pyTrunc_nonneg _, strOrNone_ne_empty _⟩
  · split at h
    · simp [pure, Except.pure] at h
    · cases h

theorem handle_three_tokens_ok (a b d : String) (c : Cost)
    (h : handle_three_tokens a b d = .ok (some c)) : CostOk c := by
  simp only [handle_three_tokens] at h
  split at h
  · simp only [bind, Except.bind] at h
    split at h
    · cases h
    · next heq =>
      simp only [pure, Except.pure] at h
      cases h
      exact ⟨get_qualified_amount_nonneg _ _ _ heq, strOrNone_ne_empty _⟩
  · split at h
    · simp only [bind, Except.bind] at h
      split at h
      · cases h
      · next heq =>
        simp only [pure, Except.pure] at h
        cases h
        exact ⟨get_qualified_amount_nonneg _ _ _ heq, strOrNone_ne_empty _⟩
    · simp [pure, Except.pure] at h

theorem compoundStep_ok (acc cost r : Option Cost)
    (hacc : CostOkOpt acc) (hcost : CostOkOpt cost)
    (h : compoundStep acc cost = .ok r) : CostOkOpt r := by
  cases cost with
  | none =>
    simp only [compoundStep, pure, Except.pure, Except.ok.injEq] at h
    subst h
    exact hacc
  | some c =>
    cases acc with
    | none =>
      simp only [compoundStep, pure, Except.pure, Except.ok.injEq] at h
      subst h
      exact hcost
    | some comp =>
      simp only [compoundStep, costAdd] at h
      by_cases hcur : comp.currency ≠ c.currency
      · rw [if_pos hcur] at h
        simp only [PyExc.caughtByValueError, pure, Except.pure, if_pos,
          Except.ok.injEq] at h
        subst h
        exact hacc
      · rw [if_neg hcur] at h
        simp only [pure, Except.pure, Except.ok.injEq] at h
        subst h
        intro x hx
        cases hx
        have h1 := hacc comp rfl
        have h2 := hcost c rfl
        refine ⟨?_, h1.2⟩
        have ha := h1.1
        have hb := h2.1
        show 0 ≤ comp.amount + c.amount
        omega

theorem foldl_compound_ok (f : String → Except PyExc (Option Cost))
    (hf : ∀ t r, f t = .ok r → CostOkOpt r) :
    ∀ (parts : List String) (acc : Option Cost), CostOkOpt acc →
      ∀ r, parts.foldlM (fun compound t => do
          let cost ← f t
          compoundStep compound cost) acc = .ok r →
        CostOkOpt r := by
  intro parts
  induction parts with
  | nil =>
    intro acc hacc r h
    simp only [List.foldlM_nil, pure, Except.pure] at h
    cases h
    exact hacc
  | cons t ts ih =>
    intro acc hacc r h
    rw [List.foldlM_cons] at h
    cases hft : f t with
    | error e =>
      rw [hft] at h
      simp only [bind, Except.bind] at h
      cases h
    | ok cost =>
      rw [hft] at h
      simp only [bind, Except.bind] at h
      cases hstep : compoundStep acc cost with
      | error e =>
        rw [hstep] at h
        cases h
      | ok acc' =>
        rw [hstep] at h
        exact ih acc' (compoundStep_ok acc cost acc' hacc (hf t cost hft) hstep) r h

theorem parseCostFuel_ok (fuel : Nat) :
    ∀ (t : String) (r : Option Cost), parseCostFuel fuel t = .ok r → CostOkOpt r := by
  induction fuel with
  | zero =>
    intro t r h
    simp only [parseCostFuel] at h
    cases h
    intro c hc
    cases hc
  | succ n ih =>
    intro t r h
    simp only [parseCostFuel] at h
    split at h
    · exact foldl_compound_ok (parseCostFuel n) ih _ none (by intro c hc; cases hc) r h
    · split at h
      · intro c hc
        cases hc
        exact handle_single_token_ok _ _ h
      · split at h
        · split at h
          · intro c hc
            cases hc
            exact handle_two_tokens_ok _ _ _ h
          · simp only [pure, Except.pure] at h
            cases h
            intro c hc
            cases hc
        · split at h
          · split at h
            · intro c hc
              cases hc
              exact handle_three_tokens_ok _ _ _ _ h
            · simp only [pure, Except.pure] at h
              cases h
              intro c hc
              cases hc
          · split at h
            · intro c hc
              cases hc
              exact handle_space_delimited_amount_ok _ _ h
            · simp only [pure, Except.pure] at h
              cases h
              intro c hc
              cases hc

/-- C7 counterexample: the single-token input `"45mln"` parses to a `Cost`
whose currency is `None` — not a non-empty currency token — so the claimed
invariant "currency is a (non-empty) short token" fails on the code. -/
theorem parse_cost_currency_none_counterexample :
    parse_cost "45mln" = .ok (some ⟨45000000, none⟩) ∧
    (Cost.mk 45000000 none).currency = none := ⟨by rfl, rfl⟩

/-- C7 (amended): every `Cost` produced by the cost parser has a
non-negative amount after qualifier expansion, and its currency is never the
empty string — but it may be `None` when the text carries no currency
token. -/
theorem parse_cost_invariant (t : String) (c : Cost)
    (h : parse_cost t = .ok (some c)) : 0 ≤ c.amount ∧ c.currency ≠ some "" :=
  parseCostFuel_ok (t.length + 1) t (some c) h c rfl

/-- Witness for `parse_cost_invariant` at `"45mln"`. -/
theorem parse_cost_invariant_witness :
    0 ≤ (Cost.mk 45000000 none).amount ∧
      (Cost.mk 45000000 none).currency ≠ some "" :=
  parse_cost_invariant "45mln" ⟨45000000, none⟩ (by rfl)

/-! ## `DetailsScraper._parse_text_with_details` -/

/-- `DetailsScraper._split_parenthesized`: split a `"MAIN (DETAIL)"` text at
the first `"("`, dropping one trailing `")"` from the detail, both sides
stripped. -/
def split_parenthesized (text : String) : String × String :=
  let p := pyPartition text "("
  let second := if pyEndsWith p.2.2 ")" then pyRemoveTrail p.2.2 ")" else p.2.2
  (pyStrip p.1, pyStrip second)

/-- `DetailsScraper._parse_text_with_details`.  The optional `text_func` /
`details_func` return values of arbitrary type in Python; an unapplied side
stays a string, embedded as the `Sum.inr` case.  Both function applications
sit inside one `try/except ParsingError: return None`, so a `ParsingError`
from either function yields `None`.  (The `try/except ValueError` around
`_split_parenthesized` in the source is dead code: a 3-way `partition`
unpacking never raises.)  `details_func` is applied only when `details` is a
nonempty string (`if details_func and details`). -/
def parse_text_with_details {α β : Type} (text : String)
    (tf : Option (String → Except PyExc α)) (df : Option (String → Except PyExc β)) :
    Except PyExc (Option ((α ⊕ String) × Option (β ⊕ String))) :=
  let md : String × Option String :=
    if pyIn "(" text then
      let p := split_parenthesized text
      (p.1, some p.2)
    else (text, none)
  let attempt : Except PyExc ((α ⊕ String) × Option (β ⊕ String)) := do
    let mainR : α ⊕ String ←
      match tf with
      | some f => (f md.1).map Sum.inl
      | none => pure (Sum.inr md.1)
    let detailsR : Option (β ⊕ String) ←
      match df, md.2 with
      | some f, some d =>
        if d ≠ "" then (f d).map (fun b => some (Sum.inl b))
        else pure (some (Sum.inr d))
      | none, some d => pure (some (Sum.inr d))
      | _, none => pure none
    pure (mainR, detailsR)
  catchParsingErr attempt

/-- C8 counterexample: the MAIN part `"10"` parses under `extract_int`, yet
the whole helper returns `None` because the DETAIL-side function
(`extract_date` on `"bar"`) raises `ParsingError` inside the same `try`. -/
theorem parse_text_with_details_counterexample :
    parse_text_with_details "10 (bar)" (some extract_int) (some extract_date) = .ok none ∧
    extract_int "10" = .ok 10 ∧
    extract_date "bar" = .error .parsingError := ⟨by rfl, by rfl, by rfl⟩

/-- C8 (amended): the helper applies `text_func` to MAIN and `details_func`
to DETAIL and tolerates a *missing* detail, but not an unparsable one: a
`ParsingError` raised by either function — including the DETAIL-side one —
makes it return `None`. -/
theorem parse_text_with_details_spec {α β : Type}
    (f : String → Except PyExc α) (g : String → Except PyExc β) :
    (∀ text a, pyIn "(" text = true →
      f (split_parenthesized text).1 = .ok a →
      (split_parenthesized text).2 ≠ "" →
      g (split_parenthesized text).2 = .error .parsingError →
      parse_text_with_details text (some f) (some g) = .ok none) ∧
    (∀ text a b, pyIn "(" text = true →
      f (split_parenthesized text).1 = .ok a →
      (split_parenthesized text).2 ≠ "" →
      g (split_parenthesized text).2 = .ok b →
      parse_text_with_details text (some f) (some g)
        = .ok (some (Sum.inl a, some (Sum.inl b)))) ∧
    (∀ text a, pyIn "(" text = false →
      f text = .ok a →
      parse_text_with_details text (some f) (some g) = .ok (some (Sum.inl a, none))) := by
  refine ⟨?_, ?_, ?_⟩
  · intro text a hpar hmain hne hfail
    simp [parse_text_with_details, hpar, bind, Except.bind, hmain, hne, hfail,
      catchParsingErr, Except.map]
  · intro text a b hpar hmain hne hok
    simp [parse_text_with_details, hpar, bind, Except.bind, hmain, hne, hok,
      catchParsingErr, pure, Except.pure, Except.map]
  · intro text a hpar hmain
    simp [parse_text_with_details, hpar, bind, Except.bind, hmain,
      catchParsingErr, pure, Except.pure, Except.map]

/-- Witness for `parse_text_with_details_spec` at `"10 (bar)"` with
`extract_int` / `extract_date`. -/
theorem parse_text_with_details_spec_witness :
    parse_text_with_details "10 (bar)" (some extract_int) (some extract_date)
      = .ok none :=
  (parse_text_with_details_spec extract_int extract_date).1 "10 (bar)" 10
    (by rfl) (by rfl) (by decide) (by rfl)

/-! ## The remaining `DetailsScraper` sub-parsers and the row dispatch of
`DetailsScraper.scrape` -/

/-- `pilka/stadiums/__init__.py`, `normalize`: unify dash and apostrophe
glyphs. -/
def normalize (text : String) : String :=
  pyReplace (pyReplace (pyReplace text "–" "-") "−" "-") "’" "'"

/-- `DetailsScraper._trim_multiples`: keep the part before the first
`", "`. -/
def trim_multiples (text : String) : String := (pyPartition text ", ").1

/-- The regex fragment `.*?\)` for `re.sub`: skip to just after the first
`")"`, failing if a newline (which `.` does not match) intervenes. -/
def findAfterClose : List Char → Option (List Char)
  | [] => none
  | ')' :: rest => some rest
  | '\n' :: _ => none
  | _ :: rest => findAfterClose rest

/-- `re.sub(r"\s\(.*?\)", "", ·)` on the char list (fuel = list length). -/
def subWsParen : Nat → List Char → List Char
  | _, [] => []
  | 0, l => l
  | fuel + 1, c :: cs =>
    if c.isWhitespace then
      match cs with
      | '(' :: rest =>
        match findAfterClose rest with
        | some rest' => subWsParen fuel rest'
        | none => c :: subWsParen fuel cs
      | _ => c :: subWsParen fuel cs
    else c :: subWsParen fuel cs

/-- `re.sub(r"\(.*?\)", "", ·)` on the char list (fuel = list length). -/
def subParen : Nat → List Char → List Char
  | _, [] => []
  | 0, l => l
  | fuel + 1, c :: cs =>
    if c = '(' then
      match findAfterClose cs with
      | some rest' => subParen fuel rest'
      | none => c :: subParen fuel cs
    else c :: subParen fuel cs

/-- `pilka/utils/__init__.py`, `clean_parenthesized`: two regex passes, the
first (whitespace + parenthetical) guarded by a `" ("` containment test, the
second (bare parenthetical) by a `"("` test. -/
def clean_parenthesized (text : String) : String :=
  let text := if pyIn " (" text then (⟨subWsParen text.data.length text.data⟩ : String)
    else text
  let text := if pyIn "(" text then (⟨subParen text.data.length text.data⟩ : String)
    else text
  text

/-- `pilka/stadiums/data.py`, `Nickname`.  The field is annotated
`duration: Duration | None` but `_parse_other_names` feeds it whatever
`_parse_duration` produced, which can also be a single `date`. -/
structure Nickname where
  name : String
  duration : Option DateOr
  deriving DecidableEq, Repr

/-- A member of the `other_names` tuple: a plain string or a `Nickname`. -/
inductive NameV where
  | plain (s : String)
  | nick (n : Nickname)
  deriving DecidableEq, Repr

/-- `pilka/stadiums/data.py`, `SubCapacity`. -/
structure SubCapacity where
  capacity : Int
  designation : Option String
  note : Option String
  deriving DecidableEq, Repr

/-- Python truthiness of the detail slot fed to `Nickname` / the `design`
update: `None`, a `None` sub-parse result, and the empty string are falsy (a
nonempty unapplied string cannot occur here since a `details_func` is always
supplied at these call sites). -/
def pyTruthyDetail : Option ((Option DateOr) ⊕ String) → Option DateOr
  | some (Sum.inl (some d)) => some d
  | _ => none

/-- `DetailsScraper._parse_renovations` (on the current cell text):
parse failures on single tokens are skipped, keeping partial results. -/
def parse_renovations (text : String) : Except PyExc (Option (List DateOr)) := do
  let text := pyRemoveTrail text "."
  let cleaned := clean_parenthesized text
  let renovations ← (pySplitOn cleaned ",").foldlM (fun acc token => do
      let d ← parse_duration (pyStrip token)
      match d with
      | some dd => pure (acc ++ [dd])
      | none => pure acc)
    ([] : List DateOr)
  pure (if renovations.isEmpty then none else some renovations)

/-- `DetailsScraper._parse_other_names`. -/
def parse_other_names (text : String) : Except PyExc (Option (List NameV)) := do
  let names ← (pySplitOn text ",").foldlM (fun acc token => do
      let token := pyStrip token
      let result ← parse_text_with_details (α := Empty) token none (some parse_duration)
      match result with
      | none => pure acc
      | some (mainR, detailR) =>
        let name : String := match mainR with
          | Sum.inl e => e.elim
          | Sum.inr s => s
        match pyTruthyDetail detailR with
        | some d => pure (acc ++ [NameV.nick ⟨name, some d⟩])
        | none => pure (acc ++ [NameV.plain name]))
    ([] : List NameV)
  pure (if names.isEmpty then none else some names)

/-- `DetailsScraper._parse_illumination`: the literal text `"none"` encodes
"no floodlights" as `0`; otherwise `extract_int`, with `ParsingError`
caught to `None`. -/
def parse_illumination (text : String) : Except PyExc (Option Int) :=
  if text = "none" then .ok (some 0)
  else catchParsingErr (extract_int text)

/-- `DetailsScraper._parse_record_attendance`. -/
def parse_record_attendance (text : String) :
    Except PyExc (Option (Int × Option String)) := do
  let r ← parse_text_with_details (β := Empty) text (some extract_int) none
  match r with
  | none => pure none
  | some (mainR, detailR) =>
    let ra : Int := match mainR with
      | Sum.inl n => n
      | Sum.inr _ => 0  -- unreachable: a `text_func` was supplied
    let det : Option String := match detailR with
      | some (Sum.inr s) => if s = "" then none else some (pyRemoveTrail s ".")
      | some (Sum.inl e) => e.elim
      | none => none
    pure (some (ra, det))

/-- The fall-through "usual case of `text1 (text2)`" inside
`_parse_inauguration`; the inauguration slot of its result is `None`, a
`date`, or (when the detail was present but empty) a string. -/
def inaugurationMainCase (text : String) :
    Except PyExc (Option (Option (PyDate ⊕ String) × Option String)) := do
  let dateIsFirst := match text.data with
    | c :: _ => c.isDigit
    | [] => false  -- unreachable: `text` ends in ")" here
  if dateIsFirst then do
    let r ← parse_text_with_details (β := Empty) text (some extract_date) none
    match r with
    | none => pure none
    | some (mainR, detailR) =>
      let inaug : Option (PyDate ⊕ String) := match mainR with
        | Sum.inl d => some (Sum.inl d)
        | Sum.inr s => some (Sum.inr s)  -- unreachable: a `text_func` was supplied
      let det : Option String := match detailR with
        | some (Sum.inr s) => if s = "" then none else some (pyRemoveTrail s ".")
        | some (Sum.inl e) => e.elim
        | none => none
      pure (some (inaug, det))
  else do
    let r ← parse_text_with_details (α := Empty) text none (some extract_date)
    match r with
    | none => pure none
    | some (mainR, detailR) =>
      let detStr : String := match mainR with
        | Sum.inl e => e.elim
        | Sum.inr s => s
      let inaug : Option (PyDate ⊕ String) := match detailR with
        | some (Sum.inl d) => some (Sum.inl d)
        | some (Sum.inr s) => some (Sum.inr s)
        | none => none
      let det : Option String := if detStr = "" then none
        else some (pyRemoveTrail detStr ".")
      pure (some (inaug, det))

/-- `DetailsScraper._parse_inauguration`.  `text.index("(")` raises
`ValueError` when a `")"` is present without `"("` and a list separator
occurs; the final no-parentheses branch catches `ValueError` (wider than the
`ParsingError`-only catch of the multiples branch). -/
def parse_inauguration (text0 : String) :
    Except PyExc (Option (Option (PyDate ⊕ String) × Option String)) := do
  let text := pyStrip text0
  if pyIn ")" text then do
    let text := (pyPartition text ")").1 ++ ")"
    let sepOpt : Option String :=
      if pyIn ", " text then some ", "
      else if pyIn " / " text then some " / "
      else none
    match sepOpt with
    | some sep => do
      let i1 ← pyIndex text sep
      let i2 ← pyIndex text "("
      if i1 < i2 then
        let text := pyStrip (pyPartition text sep).1
        match extract_date text with
        | .ok d => pure (some (some (Sum.inl d), none))
        | .error .parsingError => pure none
        | .error e => Except.error e
      else inaugurationMainCase text
    | none => inaugurationMainCase text
  else do
    let text :=
      if pyIn ", " text then pyStrip (pyPartition text ", ").1
      else if pyIn " / " text then pyStrip (pyPartition text " / ").1
      else text
    match extract_date text with
    | .ok d => pure (some (some (Sum.inl d), none))
    | .error e => if e.caughtByValueError then pure none else Except.error e

/-- `DetailsScraper._parse_designer`: either a cleaned multi-name string
(no design detail) or a `"NAME (DURATION)"` split. -/
def parse_designer (text : String) :
    Except PyExc (Option (String × Option ((Option DateOr) ⊕ String))) := do
  if pyIn ", " text ∨ pyIn " / " text then
    pure (some (pyRemoveTrail (clean_parenthesized text) ".", none))
  else do
    let r ← parse_text_with_details (α := Empty) text none (some parse_duration)
    match r with
    | none => pure none
    | some (mainR, detailR) =>
      let name : String := match mainR with
        | Sum.inl e => e.elim
        | Sum.inr s => s
      pure (some (pyRemoveTrail name ".", detailR))

/-- First char of `text` lower-cased (`text[0].lower() + text[1:]`; ASCII
lowering, which covers the texts handled here). -/
def lowerFirst (s : String) : String :=
  match s.data with
  | [] => ""
  | c :: cs => ⟨c.toLower :: cs⟩

/-- `DetailsScraper._parse_note`: accumulate onto a previous note with a
lower-cased join; a falsy result (empty text) is returned as `None`, but the
`removesuffix` runs after the truthiness test, so a note of `"."` yields the
empty string, not `None`. -/
def parse_note (old : Option String) (text : String) : Option String :=
  let combined : String :=
    match old with
    | some o => if o ≠ "" ∧ text ≠ "" then o ++ ", " ++ lowerFirst text else text
    | none => text
  if combined = "" then none else some (pyRemoveTrail combined ".")

/-- `DetailsScraper._parse_sub_capacity_amount`: `"A + B"` additive
notation; any `ValueError` is re-raised as a (bare) `ParsingError`. -/
def parse_sub_capacity_amount (text : String) : Except PyExc Int :=
  let attempt : Except PyExc Int :=
    if pyIn "+" text then
      (pySplitOn text "+").foldlM (fun acc tok =>
          if pyStrip tok ≠ "" then do
            let n ← extract_int (pyStrip tok)
            pure (acc + n)
          else pure acc)
        (0 : Int)
    else extract_int text
  match attempt with
  | .ok n => .ok n
  | .error e => if e.caughtByValueError then .error .parsingError else .error e

/-- Python `s[1:-1]`. -/
def dropFirstLast (s : String) : String := ⟨(s.data.drop 1).dropLast⟩

/-- Python `note not in designation` where either side may be `None`: the
`in` operator on strings raises `TypeError` for a non-string operand. -/
def pyNotInOpt (note desig : Option String) : Except PyExc Bool :=
  match note, desig with
  | some n, some d => .ok (!(pyIn n d))
  | _, _ => .error .typeError

/-- `DetailsScraper._parse_sub_capacity`; `span` is the text of the row's
`<span>` tag, when present. -/
def parse_sub_capacity (text : String) (span : Option String) :
    Except PyExc (Option SubCapacity) := do
  let designation : Option String := span.map pyStrip
  let designation : Option String :=
    match designation with
    | some d => if d ≠ "" then some (dropFirstLast d) else some d
    | none => none
  let text :=
    if pyCount text "(" = 2 then
      match pySplitOn text "(" with
      | [first, second, _] => pyStrip first ++ " (" ++ pyStrip second
      | _ => text  -- unreachable: exactly two "(" give exactly three parts
    else text
  let r ← parse_text_with_details (β := Empty) text (some parse_sub_capacity_amount) none
  match r with
  | none => pure none
  | some (mainR, detailR) =>
    let cap : Int := match mainR with
      | Sum.inl n => n
      | Sum.inr _ => 0  -- unreachable: a `text_func` was supplied
    let note : Option String := match detailR with
      | some (Sum.inr s) => some s
      | some (Sum.inl e) => e.elim
      | none => none
    let keep ← pyNotInOpt note designation
    let note := if keep then note else none
    pure (some ⟨cap, designation, note⟩)

/-- The `ROWS` header-alias table of a `DetailsScraper` variant. -/
structure RowsTable where
  address : List String
  otherNames : List String
  illumination : List String
  recordAttendance : List String
  cost : List String
  design : List String
  construction : List String
  inauguration : List String
  renovations : List String
  designer : List String
  structuralEngineer : List String
  contractor : List String
  investor : List String
  note : List String
  trackLength : List String

/-- `DetailsScraper.ROWS` (the stadiumdb.com variant; its `track_length`
alias set is empty). -/
def detailsScraperRows : RowsTable where
  address := ["Address", "Addres", "Adfress"]
  otherNames := ["Nicknames", "Former name", "Other name", "Other names"]
  illumination := ["Floodlights"]
  recordAttendance := ["Record attendance", "Record Attendance", "Recod attendance",
    "Record attendance (MLS)", "Record attendance (football)", "Record attendence",
    "Record attnedance", "Record audience", "Rekord frekwencji", "Rercord attendance",
    "Attendance record"]
  cost := ["Cost", "cost", "Koszt", "Kost", "Renovation Cost", "Renovation cost"]
  design := ["Design time", "Date of project", "Project date"]
  construction := ["Construction", "Concstruction", "Construction time", "Costruction",
    "Czas budowy"]
  inauguration := ["Inauguration", "Ianuguration", "Iauguration", "Inauguaration",
    "Inauguartion", "Inauguation", "Inauguracja", "Inauguration (club establishment)",
    "Inaugurtion", "Inuguration", "First match", "First event", "First game",
    "Opening game"]
  renovations := ["Renovations", "Renovation", "Renovatons"]
  designer := ["Design", "Deisgn", "Architect", "Designer", "Designs", "Project",
    "Projekt", "project"]
  structuralEngineer := ["Structural Engineer", "Structural engineer", "Engineer",
    "Roof structure"]
  contractor := ["Contractor", "Contracor", "Constractor"]
  investor := ["Client", "Investors", "Operator", "Owner", "Ownership", "ownership"]
  note := ["Hints", "Note", "Notes", "Notice", "Notices", "Other", "Others",
    "Within the project", "Dentro del proyecto"]
  trackLength := []

/-- `DetailsScraperPl.ROWS` (the stadiony.net variant; its `track_length`
set holds `"Długość toru"`). -/
def detailsScraperPlRows : RowsTable where
  address := ["Adres"]
  otherNames := ["Inne nazwy", "Nazwy potoczne"]
  illumination := ["Moc oświetlenia", "Oświetlenie"]
  recordAttendance := ["Rekord frekwencji"]
  cost := ["Koszt"]
  design := ["Data projektu"]
  construction := ["Budowa", "Czas budowy", "Czas budowa", "Rok budowy"]
  inauguration := ["Inauguracja", "Inauguration", "Pierwszy mecz"]
  renovations := ["Renowacja", "Renowacje"]
  designer := ["Projekt"]
  structuralEngineer := []
  contractor := ["Wykonawca"]
  investor := ["Właściciel"]
  note := ["Inne", "Uwagi", "W ramach projektu"]
  trackLength := ["Długość toru"]

/-- The local field accumulator of `DetailsScraper.scrape`'s row loop.  The
`inauguration` slot is `date | str | None` at runtime (see
`parse_inauguration`); `aggregated` records unmatched headers (the
`AGGREGATED_FIELDS` diagnostic multimap, keyed here by header only). -/
structure ScrapeState where
  subCapacities : List SubCapacity
  address : Option String
  otherNames : Option (List NameV)
  illumination : Option Int
  cost : Option Cost
  recordAttendance : Option Int
  recordAttendanceDetails : Option String
  design : Option DateOr
  construction : Option DateOr
  inauguration : Option (PyDate ⊕ String)
  inaugurationDetails : Option String
  renovations : Option (List DateOr)
  designer : Option String
  structuralEngineer : Option String
  contractor : Option String
  investor : Option String
  note : Option String
  trackLength : Option Int
  aggregated : List String

/-- The all-`None` initial state of `scrape`'s field variables. -/
def initState : ScrapeState :=
  ⟨[], none, none, none, none, none, none, none, none, none, none, none, none,
    none, none, none, none, none, []⟩

/-- One detail-table row: `<th>` text, `<td>` text, and the text of a
`<span>` inside the row when one exists. -/
structure Row where
  header : String
  text : String
  span : Option String

/-- The body of `DetailsScraper.scrape`'s `for row in table.find_all("tr")`
loop: header/text extraction, the `elif` dispatch over the `ROWS` alias sets
(including the duplicate-row guards on cost/construction/inauguration and
the overwrite-on-failure behaviour of the unguarded fields), and — crucially
for claim C1 — the bare `extract_int` call of the `track_length` branch,
which is the one field-level parse not wrapped in any `try`. -/
def processRow (rows : RowsTable) (st : ScrapeState) (row : Row) :
    Except PyExc ScrapeState := do
  let header := pyStrip row.header
  let text := normalize (pyStrip row.text)
  if header ∈ rows.address then
    pure { st with address := some (pyRemoveTrail text ".") }
  else if header ∈ rows.otherNames then do
    let names ← parse_other_names text
    pure { st with otherNames := names }
  else if header ∈ rows.illumination then do
    let ill ← parse_illumination text
    pure { st with illumination := ill }
  else if header ∈ rows.recordAttendance then do
    let ra ← parse_record_attendance text
    match ra with
    | none => pure { st with recordAttendance := none }
    | some (n, det) =>
      pure { st with recordAttendance := some n, recordAttendanceDetails := det }
  else if header ∈ rows.cost then
    if st.cost = none then do
      let c ← parse_cost text
      pure { st with cost := c }
    else pure st
  else if header ∈ rows.design then do
    let d ← parse_duration (trim_multiples text)
    pure { st with design := d }
  else if header ∈ rows.construction then
    if st.construction = none then do
      let c ← catchValueErrOpt (parse_duration (trim_multiples text))
      pure { st with construction := c }
    else pure st
  else if header ∈ rows.inauguration then
    if (match st.inauguration with
        | none => false
        | some (Sum.inr s) => s ≠ ""
        | some (Sum.inl _) => true) = false then do
      let r ← parse_inauguration text
      match r with
      | none => pure { st with inauguration := none }
      | some (d, det) => pure { st with inauguration := d, inaugurationDetails := det }
    else pure st
  else if header ∈ rows.renovations then do
    let r ← parse_renovations text
    pure { st with renovations := r }
  else if header ∈ rows.designer then do
    let r ← parse_designer text
    match r with
    | none => pure { st with designer := none }
    | some (name, newDesign) =>
      let design := match pyTruthyDetail newDesign, st.design with
        | some d, none => some d
        | _, _ => st.design
      pure { st with designer := some name, design := design }
  else if header ∈ rows.structuralEngineer then
    pure { st with structuralEngineer := some (pyRemoveTrail text ".") }
  else if header ∈ rows.contractor then
    pure { st with contractor := some (pyRemoveTrail (clean_parenthesized text) ".") }
  else if header ∈ rows.investor then
    pure { st with investor := some (pyRemoveTrail text ".") }
  else if header ∈ rows.note then
    pure { st with note := parse_note st.note text }
  else if header ∈ rows.trackLength then do
    let n ← extract_int text
    pure { st with trackLength := some n }
  else if header = "" then do
    let sc ← parse_sub_capacity text row.span
    match sc with
    | some s => pure { st with subCapacities := st.subCapacities ++ [s] }
    | none => pure st
  else
    pure { st with aggregated := st.aggregated ++ [header] }

/-- The whole row loop of `DetailsScraper.scrape`: an uncaught exception in
any row aborts the record (there is no `try` around the loop, and
`scrape_stadiums` above it catches only `ScrapingError`). -/
def scrapeLoop (rows : RowsTable) (rs : List Row) : Except PyExc ScrapeState :=
  rs.foldlM (processRow rows) initState

/-- C1 (the code bug): the `track_length` branch of
`DetailsScraper.scrape` calls `extract_int` bare — unlike every other
recognized field — so for a row whose header is the recognized track-length
label `"Długość toru"` (of the `DetailsScraperPl` variant, which inherits
`scrape`) and whose cell text `"n/a"` has no digits, the `ParsingError`
escapes the row loop and aborts the record; the same digit-free text under
another recognized header (floodlights) is caught and merely leaves the
field `None`. -/
theorem track_length_parsing_error_escapes :
    scrapeLoop detailsScraperPlRows [⟨"Długość toru", "n/a", none⟩]
      = .error .parsingError ∧
    scrapeLoop detailsScraperPlRows [⟨"Moc oświetlenia", "n/a", none⟩]
      = .ok { initState with illumination := none } := by
  constructor <;> rfl

/-- C9: a floodlights row whose cell text is exactly `"none"` sets the
floodlights field to `0`, while a digit-free text other than `"none"` leaves
it `None`, and the two outcomes are distinct values.  The general conjunct
covers every unparseable text (digit-free after normalization and not the
literal `"none"`). -/
theorem floodlights_none_vs_absent :
    (∀ (st : ScrapeState) (sp : Option String),
      processRow detailsScraperRows st ⟨"Floodlights", "none", sp⟩
        = .ok { st with illumination := some 0 }) ∧
    (∀ (st : ScrapeState) (sp : Option String) (text : String),
      normalize (pyStrip text) ≠ "none" →
      ((normalize (pyStrip text)).data.all fun c => !c.isDigit) = true →
      processRow detailsScraperRows st ⟨"Floodlights", text, sp⟩
        = .ok { st with illumination := none }) ∧
    (some 0 : Option Int) ≠ none := by
  refine ⟨?_, ?_, by simp⟩
  · intro st sp
    rfl
  · intro st sp text hne hnd
    have hill : parse_illumination (normalize (pyStrip text)) = .ok none := by
      simp only [parse_illumination, if_neg hne]
      have hf : (normalize (pyStrip text)).data.filter Char.isDigit = [] :=
        filter_eq_nil_of_all_not hnd
      simp [extract_int, hf, catchParsingErr]
    simp only [processRow]
    rw [if_neg (by decide), if_neg (by decide), if_pos (by decide)]
    simp only [bind, Except.bind, hill]
    rfl

/-- Witness for `floodlights_none_vs_absent` at the digit-free text
`"n/a"`. -/
theorem floodlights_none_vs_absent_witness :
    processRow detailsScraperRows initState ⟨"Floodlights", "n/a", none⟩
      = .ok { initState with illumination := none } :=
  floodlights_none_vs_absent.2.1 initState none "n/a" (by decide) (by decide)

/-! ## `pilka.stadiums.data`: the `Stadium` record and `is_modern` -/

/-- `pilka/stadiums/data.py`, `Town`. -/
structure Town where
  name : String
  county : String
  province : String
  population : Int
  areaHa : Option Int
  deriving DecidableEq, Repr

/-- `pilka/stadiums/data.py`, `League`. -/
structure League where
  name : String
  tier : Option Int
  deriving DecidableEq, Repr

/-- The `town: str | Town` union of `BasicStadium`. -/
inductive TownV where
  | named (s : String)
  | town (t : Town)
  deriving DecidableEq, Repr

/-- `pilka/stadiums/data.py`, `Stadium` (with its `BasicStadium` base
fields inlined, in dataclass field order).  Union-typed fields
(`date | Duration`, `str | Nickname`, `str | Town`) use the dedicated sum
types; tuples become lists. -/
structure Stadium where
  name : String
  url : String
  country : String
  town : TownV
  clubs : List String
  league : League
  capacity : Int
  capacityDetails : Option (List SubCapacity)
  address : Option String
  otherNames : Option (List NameV)
  floodlightsLux : Option Int
  recordAttendance : Option Int
  recordAttendanceDetails : Option String
  cost : Option Cost
  design : Option DateOr
  construction : Option DateOr
  inauguration : Option PyDate
  inaugurationDetails : Option String
  renovations : Option (List DateOr)
  designer : Option String
  structuralEngineer : Option String
  contractor : Option String
  investor : Option String
  note : Option String
  trackLengthMetres : Option Int
  description : Option String
  deriving DecidableEq, Repr

/-- `_KORONA_INAUGURATION = date(2006, 4, 1)`. -/
def KORONA_INAUGURATION : PyDate := ⟨2006, 4, 1, by decide⟩

/-- Python `max` over dates: later elements replace the current maximum only
when strictly greater (first maximal element wins). -/
def maxDate (cur item : PyDate) : PyDate := if dateLt cur item then item else cur

/-- `self.renovations[-1] if self.renovations else None` (an absent or empty
tuple is falsy). -/
def Stadium.lastRenovation (s : Stadium) : Option DateOr :=
  match s.renovations with
  | some l => l.getLast?
  | none => none

/-- The list built by `is_modern`:
`[d.end if isinstance(d, Duration) else d for d in dates if d is not None]`
over `design, construction, inauguration, last_renovation`. -/
def Stadium.modernDates (s : Stadium) : List PyDate :=
  ([s.design, s.construction, s.inauguration.map DateOr.d,
    s.lastRenovation].filterMap id).map
    (fun d => match d with
      | DateOr.dur u => u.endDate
      | DateOr.d x => x)

/-- `Stadium.is_modern`: `False` on no temporal data, otherwise the latest
relevant date compared against the fixed threshold. -/
def Stadium.isModern (s : Stadium) : Bool :=
  match s.modernDates with
  | [] => false
  | x :: xs => dateLe KORONA_INAUGURATION (xs.foldl maxDate x)

/-- The claim's description of the relevant date set: the design end, the
construction end, the inauguration date, or the last renovation end (taking
`.end` of any `Duration`-valued entry). -/
def specTemporalEnd (s : Stadium) (d : PyDate) : Prop :=
  (s.design = some (.d d) ∨ ∃ u, s.design = some (.dur u) ∧ u.endDate = d) ∨
  (s.construction = some (.d d) ∨ ∃ u, s.construction = some (.dur u) ∧ u.endDate = d) ∨
  s.inauguration = some d ∨
  (s.lastRenovation = some (.d d) ∨ ∃ u, s.lastRenovation = some (.dur u) ∧ u.endDate = d)

theorem dateLe_maxDate (t a b : PyDate) :
    dateLe t (maxDate a b) = true ↔ (dateLe t a = true ∨ dateLe t b = true) := by
  simp only [maxDate]
  cases hlt : dateLt a b with
  | true =>
    have h : a.key < b.key := by simpa [dateLt] using hlt
    simp only [if_true]
    simp only [dateLe, decide_eq_true_eq]
    omega
  | false =>
    have h : ¬ a.key < b.key := by simpa [dateLt] using hlt
    simp only [Bool.false_eq_true, if_false]
    simp only [dateLe, decide_eq_true_eq]
    omega

theorem dateLe_foldl_maxDate (t : PyDate) :
    ∀ (xs : List PyDate) (x : PyDate),
      dateLe t (xs.foldl maxDate x) = true ↔
        (dateLe t x = true ∨ ∃ y ∈ xs, dateLe t y = true) := by
  intro xs
  induction xs with
  | nil => intro x; simp
  | cons y ys ih =>
    intro x
    rw [List.foldl_cons, ih, dateLe_maxDate]
    constructor
    · rintro ((h | h) | ⟨z, hz, h⟩)
      · exact Or.inl h
      · exact Or.inr ⟨y, by simp, h⟩
      · exact Or.inr ⟨z, by simp [hz], h⟩
    · rintro (h | ⟨z, hz, h⟩)
      · exact Or.inl (Or.inl h)
      · rcases List.mem_cons.mp hz with rfl | hz'
        · exact Or.inl (Or.inr h)
        · exact Or.inr ⟨z, hz', h⟩

theorem mem_modernDates_iff (s : Stadium) (d : PyDate) :
    d ∈ s.modernDates ↔ specTemporalEnd s d := by
  simp only [Stadium.modernDates, List.mem_map, List.mem_filterMap, specTemporalEnd]
  constructor
  · rintro ⟨x, ⟨o, ho, hox⟩, hxd⟩
    simp only [List.mem_cons, List.not_mem_nil, or_false] at ho
    rcases ho with rfl | rfl | rfl | rfl
    · cases x with
      | d y =>
        subst hxd
        exact Or.inl (Or.inl hox)
      | dur u =>
        exact Or.inl (Or.inr ⟨u, hox, hxd⟩)
    · cases x with
      | d y =>
        subst hxd
        exact Or.inr (Or.inl (Or.inl hox))
      | dur u =>
        exact Or.inr (Or.inl (Or.inr ⟨u, hox, hxd⟩))
    · cases x with
      | d y =>
        cases hi : s.inauguration with
        | none => rw [hi] at hox; cases hox
        | some z =>
          rw [hi] at hox
          have hx : DateOr.d z = DateOr.d y := Option.some.inj hox
          have hz : z = y := by cases hx; rfl
          have hyd : y = d := hxd
          exact Or.inr (Or.inr (Or.inl (by rw [hz, hyd])))
      | dur u =>
        cases hi : s.inauguration with
        | none => rw [hi] at hox; cases hox
        | some z =>
          rw [hi] at hox
          exact DateOr.noConfusion (Option.some.inj hox)
    · cases x with
      | d y =>
        subst hxd
        exact Or.inr (Or.inr (Or.inr (Or.inl hox)))
      | dur u =>
        exact Or.inr (Or.inr (Or.inr (Or.inr ⟨u, hox, hxd⟩)))
  · rintro ((h | ⟨u, hu, hud⟩) | (h | ⟨u, hu, hud⟩) | h | (h | ⟨u, hu, hud⟩))
    · exact ⟨DateOr.d d, ⟨s.design, by simp, h⟩, rfl⟩
    · exact ⟨DateOr.dur u, ⟨s.design, by simp, hu⟩, hud⟩
    · exact ⟨DateOr.d d, ⟨s.construction, by simp, h⟩, rfl⟩
    · exact ⟨DateOr.dur u, ⟨s.construction, by simp, hu⟩, hud⟩
    · exact ⟨DateOr.d d, ⟨s.inauguration.map DateOr.d, by simp, by simp [h]⟩, rfl⟩
    · exact ⟨DateOr.d d, ⟨s.lastRenovation, by simp, h⟩, rfl⟩
    · exact ⟨DateOr.dur u, ⟨s.lastRenovation, by simp, hu⟩, hud⟩

/-- A `Stadium` with no optional data (concrete instance for C6). -/
def bareStadium : Stadium :=
  ⟨"Stadion", "http://stadiumdb.com/stadiums/x", "Poland", TownV.named "Miasto", [],
    ⟨"Ekstraklasa", some 1⟩, 10000, none, none, none, none, none, none, none, none,
    none, none, none, none, none, none, none, none, none, none, none⟩

/-- `bareStadium` with inauguration exactly on the threshold date. -/
def koronaOnlyStadium : Stadium :=
  { bareStadium with inauguration := some KORONA_INAUGURATION }

/-- C6: `is_modern` is true exactly when some member of the claim's date set
{design end, construction end, inauguration, last renovation end} lies on or
after the fixed threshold 2006-04-01 (so in particular the latest does); a
record whose only temporal field is an inauguration on exactly 2006-04-01 is
modern, and one with no temporal fields is not. -/
theorem is_modern_spec :
    (∀ s : Stadium, s.isModern = true ↔
      ∃ d, specTemporalEnd s d ∧ dateLe KORONA_INAUGURATION d = true) ∧
    koronaOnlyStadium.isModern = true ∧
    bareStadium.isModern = false := by
  refine ⟨?_, by rfl, by rfl⟩
  intro s
  simp only [Stadium.isModern]
  cases hm : s.modernDates with
  | nil =>
    simp only [Bool.false_eq_true, false_iff]
    rintro ⟨d, hd, _⟩
    have : d ∈ s.modernDates := (mem_modernDates_iff s d).mpr hd
    rw [hm] at this
    cases this
  | cons x xs =>
    rw [dateLe_foldl_maxDate]
    constructor
    · rintro (h | ⟨y, hy, h⟩)
      · exact ⟨x, (mem_modernDates_iff s x).mp (by rw [hm]; simp), h⟩
      · exact ⟨y, (mem_modernDates_iff s y).mp (by rw [hm]; simp [hy]), h⟩
    · rintro ⟨d, hd, h⟩
      have : d ∈ s.modernDates := (mem_modernDates_iff s d).mpr hd
      rw [hm] at this
      rcases List.mem_cons.mp this with rfl | hd'
      · exact Or.inl h
      · exact Or.inr ⟨d, hd', h⟩

/-! ## The JSON projection (`_JsonSerializable.json`) and reconstruction
(`from_json`) of `pilka.stadiums.data`

The projection composes `asdict` (dataclass → dict/list tree, tuples to
lists) with `_serialize` (drop `None` entries of every dict, `isoformat` the
dates); each `toJson` below is that composite, specialized per class.  The
reconstruction composes the key filter, the missing-key → `None` fill,
`_process_dates` (`date.fromisoformat` attempted on every string, lists
elementwise), `_deserialize_substructs` (per-field `from_json` dispatch via
`_FIELD_NAMES_TO_CLASS_NAMES`) and `totuple`; a value Python would leave in
a field of the wrong type (reconstruction does not type-check its inputs)
has no representation in the typed record, embedded as `none`. -/

inductive Json where
  | null
  | str (s : String)
  | num (n : Int)
  | arr (items : List Json)
  | obj (entries : List (String × Json))

/-- Dict lookup (keys produced by `asdict` are unique). -/
def jGet (k : String) : List (String × Json) → Option Json
  | [] => none
  | (k', v) :: rest => if k' = k then some v else jGet k rest

/-- One dict entry, omitted when the field is `None` (the
`if v is not None` filters of `json`/`_serialize`). -/
def optEnt (k : String) : Option Json → List (String × Json)
  | none => []
  | some j => [(k, j)]

/-- Elementwise decoding of a JSON list; any ill-typed element makes the
containing record unrepresentable. -/
def decodeList {α : Type} (dec : Json → Option α) : List Json → Option (List α)
  | [] => some []
  | j :: js => do
    let x ← dec j
    let xs ← decodeList dec js
    pure (x :: xs)

def Duration.toJson (u : Duration) : Json :=
  .obj [("start", .str (isoFormat u.start)), ("end", .str (isoFormat u.endDate))]

def DateOr.toJson : DateOr → Json
  | .d x => .str (isoFormat x)
  | .dur u => Duration.toJson u

def Town.toJson (t : Town) : Json :=
  .obj (optEnt "name" (some (.str t.name)) ++ optEnt "county" (some (.str t.county)) ++
    optEnt "province" (some (.str t.province)) ++
    optEnt "population" (some (.num t.population)) ++
    optEnt "area_ha" (t.areaHa.map .num))

def League.toJson (l : League) : Json :=
  .obj (optEnt "name" (some (.str l.name)) ++ optEnt "tier" (l.tier.map .num))

def Cost.toJson (c : Cost) : Json :=
  .obj (optEnt "amount" (some (.num c.amount)) ++ optEnt "currency" (c.currency.map .str))

def Nickname.toJson (n : Nickname) : Json :=
  .obj (optEnt "name" (some (.str n.name)) ++
    optEnt "duration" (n.duration.map DateOr.toJson))

def SubCapacity.toJson (sc : SubCapacity) : Json :=
  .obj (optEnt "capacity" (some (.num sc.capacity)) ++
    optEnt "designation" (sc.designation.map .str) ++
    optEnt "note" (sc.note.map .str))

def TownV.toJson : TownV → Json
  | .named s => .str s
  | .town t => Town.toJson t

def NameV.toJson : NameV → Json
  | .plain s => .str s
  | .nick n => Nickname.toJson n

/-- The dict entries of `Stadium.json`, in dataclass field order, `None`
fields omitted. -/
def Stadium.entries (s : Stadium) : List (String × Json) :=
  optEnt "name" (some (.str s.name)) ++
  optEnt "url" (some (.str s.url)) ++
  optEnt "country" (some (.str s.country)) ++
  optEnt "town" (some (TownV.toJson s.town)) ++
  optEnt "clubs" (some (.arr (s.clubs.map .str))) ++
  optEnt "league" (some (League.toJson s.league)) ++
  optEnt "capacity" (some (.num s.capacity)) ++
  optEnt "capacity_details"
    (s.capacityDetails.map (fun l => .arr (l.map SubCapacity.toJson))) ++
  optEnt "address" (s.address.map .str) ++
  optEnt "other_names" (s.otherNames.map (fun l => .arr (l.map NameV.toJson))) ++
  optEnt "floodlights_lux" (s.floodlightsLux.map .num) ++
  optEnt "record_attendance" (s.recordAttendance.map .num) ++
  optEnt "record_attendance_details" (s.recordAttendanceDetails.map .str) ++
  optEnt "cost" (s.cost.map Cost.toJson) ++
  optEnt "design" (s.design.map DateOr.toJson) ++
  optEnt "construction" (s.construction.map DateOr.toJson) ++
  optEnt "inauguration" (s.inauguration.map (fun d => .str (isoFormat d))) ++
  optEnt "inauguration_details" (s.inaugurationDetails.map .str) ++
  optEnt "renovations" (s.renovations.map (fun l => .arr (l.map DateOr.toJson))) ++
  optEnt "designer" (s.designer.map .str) ++
  optEnt "structural_engineer" (s.structuralEngineer.map .str) ++
  optEnt "contractor" (s.contractor.map .str) ++
  optEnt "investor" (s.investor.map .str) ++
  optEnt "note" (s.note.map .str) ++
  optEnt "track_length_metres" (s.trackLengthMetres.map .num) ++
  optEnt "description" (s.description.map .str)

/-- `Stadium.json`. -/
def Stadium.toJson (s : Stadium) : Json := .obj (Stadium.entries s)

/-- A required string field: `_process_dates` turns a `fromisoformat`-able
string into a `date` (ill-typed), a missing key becomes `None` (ill-typed),
anything non-string is ill-typed. -/
def decStr : Option Json → Option String
  | some (.str s) => if (dateFromIso s).isSome then none else some s
  | _ => none

/-- An optional string field. -/
def decStrOpt : Option Json → Option (Option String)
  | none => some none
  | some .null => some none
  | some (.str s) => if (dateFromIso s).isSome then none else some (some s)
  | _ => none

/-- A required int field. -/
def decInt : Option Json → Option Int
  | some (.num n) => some n
  | _ => none

/-- An optional int field. -/
def decIntOpt : Option Json → Option (Option Int)
  | none => some none
  | some .null => some none
  | some (.num n) => some (some n)
  | _ => none

/-- A required date field (`Duration.start`/`end`): only an ISO string
becomes a `date`. -/
def decDate : Option Json → Option PyDate
  | some (.str s) => dateFromIso s
  | _ => none

def Duration.fromJson : Json → Option Duration
  | .obj o => do
    let s ← decDate (jGet "start" o)
    let e ← decDate (jGet "end" o)
    pure (⟨s, e⟩ : Duration)
  | _ => none

/-- A `date | Duration | None` field (`design`, `construction`,
`Nickname.duration`; the field-to-class map sends these to `Duration` for
dict values, and `_process_dates` handles the ISO strings). -/
def decDateOrOpt : Option Json → Option (Option DateOr)
  | none => some none
  | some .null => some none
  | some (.str s) => (dateFromIso s).map (fun d => some (.d d))
  | some (.obj o) => (Duration.fromJson (.obj o)).map (fun u => some (.dur u))
  | _ => none

/-- An optional plain-date field (`inauguration`; not in the field-to-class
map, so a dict value stays a dict — ill-typed). -/
def decDateOpt : Option Json → Option (Option PyDate)
  | none => some none
  | some .null => some none
  | some (.str s) => (dateFromIso s).map some
  | _ => none

/-- One `renovations` element: ISO string → `date`, dict → `Duration`. -/
def decDateOrItem : Json → Option DateOr
  | .str s => (dateFromIso s).map .d
  | .obj o => (Duration.fromJson (.obj o)).map .dur
  | _ => none

def Cost.fromJson : Json → Option Cost
  | .obj o => do
    let a ← decInt (jGet "amount" o)
    let cur ← decStrOpt (jGet "currency" o)
    pure (⟨a, cur⟩ : Cost)
  | _ => none

def League.fromJson : Json → Option League
  | .obj o => do
    let nm ← decStr (jGet "name" o)
    let t ← decIntOpt (jGet "tier" o)
    pure (⟨nm, t⟩ : League)
  | _ => none

def Town.fromJson : Json → Option Town
  | .obj o => do
    let nm ← decStr (jGet "name" o)
    let co ← decStr (jGet "county" o)
    let pr ← decStr (jGet "province" o)
    let pop ← decInt (jGet "population" o)
    let ar ← decIntOpt (jGet "area_ha" o)
    pure (⟨nm, co, pr, pop, ar⟩ : Town)
  | _ => none

def Nickname.fromJson : Json → Option Nickname
  | .obj o => do
    let nm ← decStr (jGet "name" o)
    let dur ← decDateOrOpt (jGet "duration" o)
    pure (⟨nm, dur⟩ : Nickname)
  | _ => none

def SubCapacity.fromJson : Json → Option SubCapacity
  | .obj o => do
    let cap ← decInt (jGet "capacity" o)
    let des ← decStrOpt (jGet "designation" o)
    let nt ← decStrOpt (jGet "note" o)
    pure (⟨cap, des, nt⟩ : SubCapacity)
  | _ => none

/-- The `town: str | Town` field. -/
def decTownV : Option Json → Option TownV
  | some (.str s) => if (dateFromIso s).isSome then none else some (.named s)
  | some (.obj o) => (Town.fromJson (.obj o)).map .town
  | _ => none

/-- One `other_names` element: `str | Nickname`. -/
def decNameV : Json → Option NameV
  | .str s => if (dateFromIso s).isSome then none else some (.plain s)
  | .obj o => (Nickname.fromJson (.obj o)).map .nick
  | _ => none

/-- The `clubs` tuple of strings. -/
def decClubs : Option Json → Option (List String)
  | some (.arr l) =>
    decodeList (fun j => match j with
      | .str s => if (dateFromIso s).isSome then none else some s
      | _ => none) l
  | _ => none

/-- An optional list-valued field with the given element decoder. -/
def decListOpt {α : Type} (dec : Json → Option α) : Option Json → Option (Option (List α))
  | none => some none
  | some .null => some none
  | some (.arr l) => (decodeList dec l).map some
  | _ => none

/-- The `league` field (a required `League` sub-structure). -/
def decLeague : Option Json → Option League
  | some (.obj lo) => League.fromJson (.obj lo)
  | _ => none

/-- The `cost` field (an optional `Cost` sub-structure). -/
def decCost : Option Json → Option (Option Cost)
  | none => some none
  | some .null => some none
  | some (.obj co) => (Cost.fromJson (.obj co)).map some
  | _ => none

/-- One `capacity_details` element. -/
def decSubCapJ : Json → Option SubCapacity
  | .obj so => SubCapacity.fromJson (.obj so)
  | _ => none

/-- `Stadium.from_json`, binds for the trailing fields (split to keep each
decoding chain short). -/
def Stadium.fromJsonD (o : List (String × Json)) (name url country : String)
    (town : TownV) (clubs : List String) (league : League) (capacity : Int)
    (capacityDetails : Option (List SubCapacity)) (address : Option String)
    (otherNames : Option (List NameV)) (floodlightsLux recordAttendance : Option Int)
    (recordAttendanceDetails : Option String) (cost : Option Cost)
    (design construction : Option DateOr) (inauguration : Option PyDate)
    (inaugurationDetails : Option String) (renovations : Option (List DateOr))
    (designer : Option String) : Option Stadium :=
  (decStrOpt (jGet "structural_engineer" o)).bind fun structuralEngineer =>
  (decStrOpt (jGet "contractor" o)).bind fun contractor =>
  (decStrOpt (jGet "investor" o)).bind fun investor =>
  (decStrOpt (jGet "note" o)).bind fun note =>
  (decIntOpt (jGet "track_length_metres" o)).bind fun trackLengthMetres =>
  (decStrOpt (jGet "description" o)).bind fun description =>
  some (⟨name, url, country, town, clubs, league, capacity, capacityDetails,
    address, otherNames, floodlightsLux, recordAttendance,
    recordAttendanceDetails, cost, design, construction, inauguration,
    inaugurationDetails, renovations, designer, structuralEngineer,
    contractor, investor, note, trackLengthMetres, description⟩ : Stadium)

/-- `Stadium.from_json`, binds for the temporal fields. -/
def Stadium.fromJsonC (o : List (String × Json)) (name url country : String)
    (town : TownV) (clubs : List String) (league : League) (capacity : Int)
    (capacityDetails : Option (List SubCapacity)) (address : Option String)
    (otherNames : Option (List NameV)) (floodlightsLux recordAttendance : Option Int)
    (recordAttendanceDetails : Option String) (cost : Option Cost) : Option Stadium :=
  (decDateOrOpt (jGet "design" o)).bind fun design =>
  (decDateOrOpt (jGet "construction" o)).bind fun construction =>
  (decDateOpt (jGet "inauguration" o)).bind fun inauguration =>
  (decStrOpt (jGet "inauguration_details" o)).bind fun inaugurationDetails =>
  (decListOpt decDateOrItem (jGet "renovations" o)).bind fun renovations =>
  (decStrOpt (jGet "designer" o)).bind fun designer =>
  Stadium.fromJsonD o name url country town clubs league capacity
    capacityDetails address otherNames floodlightsLux recordAttendance
    recordAttendanceDetails cost design construction inauguration
    inaugurationDetails renovations designer

/-- `Stadium.from_json`, binds for the optional middle fields. -/
def Stadium.fromJsonB (o : List (String × Json)) (name url country : String)
    (town : TownV) (clubs : List String) (league : League) (capacity : Int) :
    Option Stadium :=
  (decListOpt decSubCapJ (jGet "capacity_details" o)).bind fun capacityDetails =>
  (decStrOpt (jGet "address" o)).bind fun address =>
  (decListOpt decNameV (jGet "other_names" o)).bind fun otherNames =>
  (decIntOpt (jGet "floodlights_lux" o)).bind fun floodlightsLux =>
  (decIntOpt (jGet "record_attendance" o)).bind fun recordAttendance =>
  (decStrOpt (jGet "record_attendance_details" o)).bind fun recordAttendanceDetails =>
  (decCost (jGet "cost" o)).bind fun cost =>
  Stadium.fromJsonC o name url country town clubs league capacity
    capacityDetails address otherNames floodlightsLux recordAttendance
    recordAttendanceDetails cost

/-- `Stadium.from_json` (the `BasicStadium` head fields, then the rest via
the helpers above). -/
def Stadium.fromJson : Json → Option Stadium
  | .obj o =>
    (decStr (jGet "name" o)).bind fun name =>
    (decStr (jGet "url" o)).bind fun url =>
    (decStr (jGet "country" o)).bind fun country =>
    (decTownV (jGet "town" o)).bind fun town =>
    (decClubs (jGet "clubs" o)).bind fun clubs =>
    (decLeague (jGet "league" o)).bind fun league =>
    (decInt (jGet "capacity" o)).bind fun capacity =>
    Stadium.fromJsonB o name url country town clubs league capacity
  | _ => none

/-! ## Round-trip lemmas for the JSON projection -/

theorem charVal_digitToChar (k : Nat) (h : k < 10) :
    charVal (digitToChar k) = some k := by
  interval_cases k <;> decide

theorem daysInMonth_le_31 (y m : Nat) : daysInMonth y m ≤ 31 := by
  unfold daysInMonth
  split
  · split <;> omega
  · split <;> omega

/-- `date.fromisoformat(d.isoformat()) == d` for every valid date. -/
theorem charUtf8Size_digitToChar (k : Nat) :
    charUtf8Size (digitToChar k) = 1 := by
  unfold digitToChar
  split <;> decide

theorem digitToChar_ne_W (k : Nat) : ¬ digitToChar k = 'W' := by
  unfold digitToChar
  split <;> decide

theorem isoFromSep_not_W (year : Nat) (hasSep : Bool) (c : Char)
    (rest : List Char) (h : ¬ c = 'W') :
    isoFromSep year hasSep (c :: rest) = isoMonthTail year hasSep (c :: rest) := by
  show (if c = 'W' then isoWeekTail year hasSep rest
    else isoMonthTail year hasSep (c :: rest)) = isoMonthTail year hasSep (c :: rest)
  rw [if_neg h]

theorem dateFromIso_of_len10 (s : String) (h : utf8Length s.data = 10) :
    dateFromIso s = isoParse s.data := by
  simp [dateFromIso, h]

theorem iso_roundtrip (d : PyDate) : dateFromIso (isoFormat d) = some d := by
  obtain ⟨y, m, dd, hv⟩ := d
  have hvb := hv
  simp only [validDate, Bool.and_eq_true, decide_eq_true_eq] at hvb
  have hlen : utf8Length (isoFormat ⟨y, m, dd, hv⟩).data = 10 := by
    show utf8Length [digitToChar (y / 1000 % 10), digitToChar (y / 100 % 10),
      digitToChar (y / 10 % 10), digitToChar (y % 10), '-',
      digitToChar (m / 10 % 10), digitToChar (m % 10), '-',
      digitToChar (dd / 10 % 10), digitToChar (dd % 10)] = 10
    simp only [utf8Length, charUtf8Size_digitToChar]
    decide
  rw [dateFromIso_of_len10 _ hlen]
  show (do
    let a ← charVal (digitToChar (y / 1000 % 10))
    let b ← charVal (digitToChar (y / 100 % 10))
    let c ← charVal (digitToChar (y / 10 % 10))
    let e ← charVal (digitToChar (y % 10))
    isoFromYear (1000 * a + 100 * b + 10 * c + e)
      ['-', digitToChar (m / 10 % 10), digitToChar (m % 10), '-',
        digitToChar (dd / 10 % 10), digitToChar (dd % 10)]
    : Option PyDate) = some ⟨y, m, dd, hv⟩
  rw [charVal_digitToChar _ (Nat.mod_lt _ (by norm_num)),
    charVal_digitToChar _ (Nat.mod_lt _ (by norm_num)),
    charVal_digitToChar _ (Nat.mod_lt _ (by norm_num)),
    charVal_digitToChar _ (Nat.mod_lt _ (by norm_num))]
  have e1 : y / 100 / 10 = y / 1000 := by
    simp [Nat.div_div_eq_div_mul]
  have e2 : y / 10 / 10 = y / 100 := by
    simp [Nat.div_div_eq_div_mul]
  have ey : 1000 * (y / 1000 % 10) + 100 * (y / 100 % 10) + 10 * (y / 10 % 10) + y % 10 = y := by
    omega
  show isoFromYear
      (1000 * (y / 1000 % 10) + 100 * (y / 100 % 10) + 10 * (y / 10 % 10) + y % 10)
      ['-', digitToChar (m / 10 % 10), digitToChar (m % 10), '-',
        digitToChar (dd / 10 % 10), digitToChar (dd % 10)] = some ⟨y, m, dd, hv⟩
  rw [ey]
  show isoFromSep y true
      (digitToChar (m / 10 % 10) :: [digitToChar (m % 10), '-',
        digitToChar (dd / 10 % 10), digitToChar (dd % 10)]) = some ⟨y, m, dd, hv⟩
  rw [isoFromSep_not_W _ _ _ _ (digitToChar_ne_W _)]
  show (do
    let f ← charVal (digitToChar (m / 10 % 10))
    let g ← charVal (digitToChar (m % 10))
    let h ← charVal (digitToChar (dd / 10 % 10))
    let i ← charVal (digitToChar (dd % 10))
    let mo := 10 * f + g
    let dd' := 10 * h + i
    if hv' : validDate y mo dd' then some ⟨y, mo, dd', hv'⟩ else none
    : Option PyDate) = some ⟨y, m, dd, hv⟩
  rw [charVal_digitToChar _ (Nat.mod_lt _ (by norm_num)),
    charVal_digitToChar _ (Nat.mod_lt _ (by norm_num)),
    charVal_digitToChar _ (Nat.mod_lt _ (by norm_num)),
    charVal_digitToChar _ (Nat.mod_lt _ (by norm_num))]
  show ((if hv' : validDate y (10 * (m / 10 % 10) + m % 10)
        (10 * (dd / 10 % 10) + dd % 10) then
      some ⟨y, 10 * (m / 10 % 10) + m % 10, 10 * (dd / 10 % 10) + dd % 10, hv'⟩
    else none : Option PyDate)) = some ⟨y, m, dd, hv⟩
  have em : 10 * (m / 10 % 10) + m % 10 = m := by omega
  have ed : 10 * (dd / 10 % 10) + dd % 10 = dd := by
    have h31 : daysInMonth y m ≤ 31 := daysInMonth_le_31 y m
    omega
  simp only [em, ed]
  exact dif_pos hv

theorem jGet_append (k : String) (l1 l2 : List (String × Json)) :
    jGet k (l1 ++ l2) = (jGet k l1).orElse (fun _ => jGet k l2) := by
  induction l1 with
  | nil => simp [jGet, Option.orElse]
  | cons e rest ih =>
    obtain ⟨k', v⟩ := e
    by_cases h : k' = k
    · simp [jGet, h, Option.orElse]
    · show (if k' = k then some v else jGet k (rest ++ l2))
        = Option.orElse (if k' = k then some v else jGet k rest) fun _ => jGet k l2
      simp only [if_neg h]
      exact ih

theorem jGet_optEnt_self (k : String) (o : Option Json) :
    jGet k (optEnt k o) = o := by
  cases o <;> simp [optEnt, jGet]

theorem jGet_optEnt_ne (k k' : String) (o : Option Json) (h : ¬ k' = k) :
    jGet k (optEnt k' o) = none := by
  cases o <;> simp [optEnt, jGet, h]

theorem duration_roundtrip (u : Duration) :
    Duration.fromJson (Duration.toJson u) = some u := by
  show (do
    let s ← decDate (jGet "start" [("start", .str (isoFormat u.start)),
      ("end", .str (isoFormat u.endDate))])
    let e ← decDate (jGet "end" [("start", .str (isoFormat u.start)),
      ("end", .str (isoFormat u.endDate))])
    pure (⟨s, e⟩ : Duration) : Option Duration) = some u
  show (do
    let s ← dateFromIso (isoFormat u.start)
    let e ← dateFromIso (isoFormat u.endDate)
    pure (⟨s, e⟩ : Duration) : Option Duration) = some u
  rw [iso_roundtrip, iso_roundtrip]
  rfl

/-- `Option.bind` on a present value (a reduction helper for the decoder
proofs). -/
theorem some_bind_j {α β : Type} (a : α) (f : α → Option β) :
    Option.bind (some a) f = f a := rfl

/-- `Option.orElse` on a present first value. -/
theorem some_orElse_j {α : Type} (a : α) (f : Unit → Option α) :
    Option.orElse (some a) f = some a := rfl

/-- `Option.orElse` on an absent first value. -/
theorem none_orElse_j {α : Type} (f : Unit → Option α) :
    Option.orElse none f = f () := rfl

/-- `Option.orElse` with an absent fallback. -/
theorem orElse_none_j {α : Type} (x : Option α) :
    Option.orElse x (fun _ => none) = x := by cases x <;> rfl

/-! ### The "no string is ISO-date-like" side condition

`_deserialize_dates` tries `date.fromisoformat` on every string in the
tree, so a string *field* whose value happens to parse as an ISO date comes
back as a `date` object, not the original string — the documented
field-collision edge case.  The predicates below say no string anywhere in
the record is date-like. -/

def strOkB (x : String) : Bool := (dateFromIso x).isNone

def strOptOkB : Option String → Bool
  | none => true
  | some x => strOkB x

def townVOkB : TownV → Bool
  | .named s => strOkB s
  | .town t => strOkB t.name && strOkB t.county && strOkB t.province

def nameVOkB : NameV → Bool
  | .plain s => strOkB s
  | .nick n => strOkB n.name

def subCapOkB (sc : SubCapacity) : Bool :=
  strOptOkB sc.designation && strOptOkB sc.note

def listOkB {α : Type} (p : α → Bool) : Option (List α) → Bool
  | none => true
  | some l => l.all p

def costOkB : Option Cost → Bool
  | none => true
  | some c => strOptOkB c.currency

/-- No string field anywhere in the record is ISO-date-like. -/
def stadiumStringsOk (s : Stadium) : Bool :=
  strOkB s.name && strOkB s.url && strOkB s.country && townVOkB s.town &&
  s.clubs.all strOkB && strOkB s.league.name &&
  listOkB subCapOkB s.capacityDetails &&
  strOptOkB s.address &&
  listOkB nameVOkB s.otherNames &&
  strOptOkB s.recordAttendanceDetails &&
  costOkB s.cost &&
  strOptOkB s.inaugurationDetails &&
  strOptOkB s.designer && strOptOkB s.structuralEngineer &&
  strOptOkB s.contractor && strOptOkB s.investor && strOptOkB s.note &&
  strOptOkB s.description

theorem strOkB_none {x : String} (h : strOkB x = true) : dateFromIso x = none := by
  simpa [strOkB, Option.isNone_iff_eq_none] using h

theorem strOptOkB_forall {o : Option String} (h : strOptOkB o = true) :
    ∀ x ∈ o, dateFromIso x = none := by
  intro x hx
  cases o with
  | none => cases hx
  | some y =>
    cases hx
    exact strOkB_none h

/-! ### Decoder/encoder round-trips -/

theorem decStr_enc (x : String) (h : dateFromIso x = none) :
    decStr (some (.str x)) = some x := by
  simp [decStr, h]

theorem decStrOpt_enc (o : Option String) (h : ∀ x ∈ o, dateFromIso x = none) :
    decStrOpt (o.map .str) = some o := by
  cases o with
  | none => rfl
  | some x => simp [decStrOpt, h x rfl]

theorem decIntOpt_enc (o : Option Int) : decIntOpt (o.map .num) = some o := by
  cases o <;> rfl

theorem decDateOrOpt_enc (o : Option DateOr) :
    decDateOrOpt (o.map DateOr.toJson) = some o := by
  cases o with
  | none => rfl
  | some x =>
    cases x with
    | d y =>
      show Option.map (fun d => (some (DateOr.d d) : Option DateOr))
        (dateFromIso (isoFormat y)) = some (some (DateOr.d y))
      rw [iso_roundtrip]
      rfl
    | dur u =>
      show Option.map (fun v => (some (DateOr.dur v) : Option DateOr))
        (Duration.fromJson (Duration.toJson u)) = some (some (DateOr.dur u))
      rw [duration_roundtrip]
      rfl

theorem decDateOpt_enc (o : Option PyDate) :
    decDateOpt (o.map (fun d => Json.str (isoFormat d))) = some o := by
  cases o with
  | none => rfl
  | some d =>
    show (dateFromIso (isoFormat d)).map some = some (some d)
    rw [iso_roundtrip]
    rfl

theorem decDateOrItem_enc (x : DateOr) : decDateOrItem (DateOr.toJson x) = some x := by
  cases x with
  | d y =>
    show (dateFromIso (isoFormat y)).map DateOr.d = some (.d y)
    rw [iso_roundtrip]
    rfl
  | dur u =>
    show (Duration.fromJson (Duration.toJson u)).map DateOr.dur = some (.dur u)
    rw [duration_roundtrip]
    rfl

theorem cost_roundtrip (c : Cost) (h : strOptOkB c.currency = true) :
    Cost.fromJson (Cost.toJson c) = some c := by
  obtain ⟨a, cur⟩ := c
  cases cur with
  | none => rfl
  | some x =>
    have hx : dateFromIso x = none := strOkB_none (by simpa [strOptOkB] using h)
    show (do
      let a' ← decInt (some (.num a))
      let cur' ← decStrOpt (some (.str x))
      pure (⟨a', cur'⟩ : Cost) : Option Cost) = some ⟨a, some x⟩
    rw [show decStrOpt (some (.str x)) = some (some x) from by simp [decStrOpt, hx]]
    rfl

theorem league_roundtrip (l : League) (h : strOkB l.name = true) :
    League.fromJson (League.toJson l) = some l := by
  obtain ⟨nm, t⟩ := l
  have hn : dateFromIso nm = none := strOkB_none h
  cases t with
  | none =>
    show (do
      let nm' ← decStr (some (.str nm))
      let t' ← decIntOpt none
      pure (⟨nm', t'⟩ : League) : Option League) = some ⟨nm, none⟩
    rw [decStr_enc _ hn]
    rfl
  | some k =>
    show (do
      let nm' ← decStr (some (.str nm))
      let t' ← decIntOpt (some (.num k))
      pure (⟨nm', t'⟩ : League) : Option League) = some ⟨nm, some k⟩
    rw [decStr_enc _ hn]
    rfl

theorem town_roundtrip (t : Town) (h : strOkB t.name = true)
    (h2 : strOkB t.county = true) (h3 : strOkB t.province = true) :
    Town.fromJson (Town.toJson t) = some t := by
  obtain ⟨nm, co, pr, pop, ar⟩ := t
  have hn : dateFromIso nm = none := strOkB_none h
  have hc : dateFromIso co = none := strOkB_none h2
  have hp : dateFromIso pr = none := strOkB_none h3
  cases ar with
  | none =>
    show (do
      let nm' ← decStr (some (.str nm))
      let co' ← decStr (some (.str co))
      let pr' ← decStr (some (.str pr))
      let pop' ← decInt (some (.num pop))
      let ar' ← decIntOpt none
      pure (⟨nm', co', pr', pop', ar'⟩ : Town) : Option Town) = some ⟨nm, co, pr, pop, none⟩
    rw [decStr_enc _ hn, decStr_enc _ hc, decStr_enc _ hp]
    rfl
  | some k =>
    show (do
      let nm' ← decStr (some (.str nm))
      let co' ← decStr (some (.str co))
      let pr' ← decStr (some (.str pr))
      let pop' ← decInt (some (.num pop))
      let ar' ← decIntOpt (some (.num k))
      pure (⟨nm', co', pr', pop', ar'⟩ : Town) : Option Town) = some ⟨nm, co, pr, pop, some k⟩
    rw [decStr_enc _ hn, decStr_enc _ hc, decStr_enc _ hp]
    rfl

theorem nickname_roundtrip (n : Nickname) (h : strOkB n.name = true) :
    Nickname.fromJson (Nickname.toJson n) = some n := by
  obtain ⟨nm, dur⟩ := n
  have hn : dateFromIso nm = none := strOkB_none h
  cases dur with
  | none =>
    show (do
      let nm' ← decStr (some (.str nm))
      let dur' ← decDateOrOpt none
      pure (⟨nm', dur'⟩ : Nickname) : Option Nickname) = some ⟨nm, none⟩
    rw [decStr_enc _ hn]
    rfl
  | some x =>
    show (do
      let nm' ← decStr (some (.str nm))
      let dur' ← decDateOrOpt (some (DateOr.toJson x))
      pure (⟨nm', dur'⟩ : Nickname) : Option Nickname) = some ⟨nm, some x⟩
    rw [decStr_enc _ hn,
      show decDateOrOpt (some (DateOr.toJson x)) = some (some x) from
        decDateOrOpt_enc (some x)]
    rfl

theorem subcap_roundtrip (sc : SubCapacity) (h : subCapOkB sc = true) :
    SubCapacity.fromJson (SubCapacity.toJson sc) = some sc := by
  obtain ⟨cap, des, nt⟩ := sc
  simp only [subCapOkB, Bool.and_eq_true] at h
  have hd := strOptOkB_forall h.1
  have hn := strOptOkB_forall h.2
  cases des with
  | none =>
    cases nt with
    | none => rfl
    | some x =>
      show (do
        let cap' ← decInt (some (.num cap))
        let des' ← decStrOpt none
        let nt' ← decStrOpt (some (.str x))
        pure (⟨cap', des', nt'⟩ : SubCapacity) : Option SubCapacity)
        = some ⟨cap, none, some x⟩
      rw [show decStrOpt (some (.str x)) = some (some x) from by
        simp [decStrOpt, hn x rfl]]
      rfl
  | some y =>
    cases nt with
    | none =>
      show (do
        let cap' ← decInt (some (.num cap))
        let des' ← decStrOpt (some (.str y))
        let nt' ← decStrOpt none
        pure (⟨cap', des', nt'⟩ : SubCapacity) : Option SubCapacity)
        = some ⟨cap, some y, none⟩
      rw [show decStrOpt (some (.str y)) = some (some y) from by
        simp [decStrOpt, hd y rfl]]
      rfl
    | some x =>
      show (do
        let cap' ← decInt (some (.num cap))
        let des' ← decStrOpt (some (.str y))
        let nt' ← decStrOpt (some (.str x))
        pure (⟨cap', des', nt'⟩ : SubCapacity) : Option SubCapacity)
        = some ⟨cap, some y, some x⟩
      rw [show decStrOpt (some (.str y)) = some (some y) from by
          simp [decStrOpt, hd y rfl],
        show decStrOpt (some (.str x)) = some (some x) from by
          simp [decStrOpt, hn x rfl]]
      rfl

theorem decTownV_enc (tv : TownV) (h : townVOkB tv = true) :
    decTownV (some (TownV.toJson tv)) = some tv := by
  cases tv with
  | named s =>
    have hs : dateFromIso s = none := strOkB_none h
    show decTownV (some (.str s)) = some (.named s)
    simp [decTownV, hs]
  | town t =>
    simp only [townVOkB, Bool.and_eq_true] at h
    show (Town.fromJson (Town.toJson t)).map TownV.town = some (.town t)
    rw [town_roundtrip t h.1.1 h.1.2 h.2]
    rfl

theorem decNameV_enc (v : NameV) (h : nameVOkB v = true) :
    decNameV (NameV.toJson v) = some v := by
  cases v with
  | plain s =>
    have hs : dateFromIso s = none := strOkB_none h
    show decNameV (.str s) = some (.plain s)
    simp [decNameV, hs]
  | nick n =>
    show (Nickname.fromJson (Nickname.toJson n)).map NameV.nick = some (.nick n)
    rw [nickname_roundtrip n h]
    rfl

theorem decSubCapJ_enc (sc : SubCapacity) (h : subCapOkB sc = true) :
    decSubCapJ (SubCapacity.toJson sc) = some sc := by
  show SubCapacity.fromJson (SubCapacity.toJson sc) = some sc
  exact subcap_roundtrip sc h

theorem decodeList_enc {α : Type} (enc : α → Json) (dec : Json → Option α)
    (l : List α) (h : ∀ x ∈ l, dec (enc x) = some x) :
    decodeList dec (l.map enc) = some l := by
  induction l with
  | nil => rfl
  | cons x xs ih =>
    show (do
      let y ← dec (enc x)
      let ys ← decodeList dec (xs.map enc)
      pure (y :: ys) : Option (List α)) = some (x :: xs)
    rw [h x (by simp), ih (fun z hz => h z (by simp [hz]))]
    rfl

theorem decClubs_enc (l : List String) (h : (l.all strOkB) = true) :
    decClubs (some (.arr (l.map .str))) = some l := by
  show decodeList (fun j => match j with
    | .str s => if (dateFromIso s).isSome then none else some s
    | _ => none) (l.map .str) = some l
  apply decodeList_enc
  intro x hx
  have hs : dateFromIso x = none := strOkB_none (by
    rw [List.all_eq_true] at h
    simpa using h x hx)
  simp [hs]

theorem decListOpt_enc {α : Type} (enc : α → Json) (dec : Json → Option α)
    (o : Option (List α)) (h : ∀ l, o = some l → ∀ x ∈ l, dec (enc x) = some x) :
    decListOpt dec (o.map (fun l => .arr (l.map enc))) = some o := by
  cases o with
  | none => rfl
  | some l =>
    show (decodeList dec (l.map enc)).map some = some (some l)
    rw [decodeList_enc enc dec l (h l rfl)]
    rfl

theorem decLeague_enc (l : League) (h : strOkB l.name = true) :
    decLeague (some (League.toJson l)) = some l := by
  show League.fromJson (League.toJson l) = some l
  exact league_roundtrip l h

theorem decCost_enc (o : Option Cost) (h : costOkB o = true) :
    decCost (o.map Cost.toJson) = some o := by
  cases o with
  | none => rfl
  | some c =>
    show (Cost.fromJson (Cost.toJson c)).map some = some (some c)
    rw [cost_roundtrip c h]
    rfl

/-! ### Field lookups in the serialized `Stadium` dict -/

theorem jget_s_name (s : Stadium) :
    jGet "name" (Stadium.entries s) = some (.str s.name) := by
  simp [Stadium.entries, jGet_append, jGet_optEnt_self, jGet_optEnt_ne,
    some_orElse_j, none_orElse_j, orElse_none_j]

theorem jget_s_url (s : Stadium) :
    jGet "url" (Stadium.entries s) = some (.str s.url) := by
  simp [Stadium.entries, jGet_append, jGet_optEnt_self, jGet_optEnt_ne,
    some_orElse_j, none_orElse_j, orElse_none_j]

theorem jget_s_country (s : Stadium) :
    jGet "country" (Stadium.entries s) = some (.str s.country) := by
  simp [Stadium.entries, jGet_append, jGet_optEnt_self, jGet_optEnt_ne,
    some_orElse_j, none_orElse_j, orElse_none_j]

theorem jget_s_town (s : Stadium) :
    jGet "town" (Stadium.entries s) = some (TownV.toJson s.town) := by
  simp [Stadium.entries, jGet_append, jGet_optEnt_self, jGet_optEnt_ne,
    some_orElse_j, none_orElse_j, orElse_none_j]

theorem jget_s_clubs (s : Stadium) :
    jGet "clubs" (Stadium.entries s) = some (.arr (s.clubs.map .str)) := by
  simp [Stadium.entries, jGet_append, jGet_optEnt_self, jGet_optEnt_ne,
    some_orElse_j, none_orElse_j, orElse_none_j]

theorem jget_s_league (s : Stadium) :
    jGet "league" (Stadium.entries s) = some (League.toJson s.league) := by
  simp [Stadium.entries, jGet_append, jGet_optEnt_self, jGet_optEnt_ne,
    some_orElse_j, none_orElse_j, orElse_none_j]

theorem jget_s_capacity (s : Stadium) :
    jGet "capacity" (Stadium.entries s) = some (.num s.capacity) := by
  simp [Stadium.entries, jGet_append, jGet_optEnt_self, jGet_optEnt_ne,
    some_orElse_j, none_orElse_j, orElse_none_j]

theorem jget_s_capacity_details (s : Stadium) :
    jGet "capacity_details" (Stadium.entries s)
      = s.capacityDetails.map (fun l => .arr (l.map SubCapacity.toJson)) := by
  simp [Stadium.entries, jGet_append, jGet_optEnt_self, jGet_optEnt_ne,
    some_orElse_j, none_orElse_j, orElse_none_j]

theorem jget_s_address (s : Stadium) :
    jGet "address" (Stadium.entries s) = s.address.map .str := by
  simp [Stadium.entries, jGet_append, jGet_optEnt_self, jGet_optEnt_ne,
    some_orElse_j, none_orElse_j, orElse_none_j]

theorem jget_s_other_names (s : Stadium) :
    jGet "other_names" (Stadium.entries s)
      = s.otherNames.map (fun l => .arr (l.map NameV.toJson)) := by
  simp [Stadium.entries, jGet_append, jGet_optEnt_self, jGet_optEnt_ne,
    some_orElse_j, none_orElse_j, orElse_none_j]

theorem jget_s_floodlights (s : Stadium) :
    jGet "floodlights_lux" (Stadium.entries s) = s.floodlightsLux.map .num := by
  simp [Stadium.entries, jGet_append, jGet_optEnt_self, jGet_optEnt_ne,
    some_orElse_j, none_orElse_j, orElse_none_j]

theorem jget_s_record_attendance (s : Stadium) :
    jGet "record_attendance" (Stadium.entries s) = s.recordAttendance.map .num := by
  simp [Stadium.entries, jGet_append, jGet_optEnt_self, jGet_optEnt_ne,
    some_orElse_j, none_orElse_j, orElse_none_j]

theorem jget_s_record_attendance_details (s : Stadium) :
    jGet "record_attendance_details" (Stadium.entries s)
      = s.recordAttendanceDetails.map .str := by
  simp [Stadium.entries, jGet_append, jGet_optEnt_self, jGet_optEnt_ne,
    some_orElse_j, none_orElse_j, orElse_none_j]

theorem jget_s_cost (s : Stadium) :
    jGet "cost" (Stadium.entries s) = s.cost.map Cost.toJson := by
  simp [Stadium.entries, jGet_append, jGet_optEnt_self, jGet_optEnt_ne,
    some_orElse_j, none_orElse_j, orElse_none_j]

theorem jget_s_design (s : Stadium) :
    jGet "design" (Stadium.entries s) = s.design.map DateOr.toJson := by
  simp [Stadium.entries, jGet_append, jGet_optEnt_self, jGet_optEnt_ne,
    some_orElse_j, none_orElse_j, orElse_none_j]

theorem jget_s_construction (s : Stadium) :
    jGet "construction" (Stadium.entries s) = s.construction.map DateOr.toJson := by
  simp [Stadium.entries, jGet_append, jGet_optEnt_self, jGet_optEnt_ne,
    some_orElse_j, none_orElse_j, orElse_none_j]

theorem jget_s_inauguration (s : Stadium) :
    jGet "inauguration" (Stadium.entries s)
      = s.inauguration.map (fun d => Json.str (isoFormat d)) := by
  simp [Stadium.entries, jGet_append, jGet_optEnt_self, jGet_optEnt_ne,
    some_orElse_j, none_orElse_j, orElse_none_j]

theorem jget_s_inauguration_details (s : Stadium) :
    jGet "inauguration_details" (Stadium.entries s)
      = s.inaugurationDetails.map .str := by
  simp [Stadium.entries, jGet_append, jGet_optEnt_self, jGet_optEnt_ne,
    some_orElse_j, none_orElse_j, orElse_none_j]

theorem jget_s_renovations (s : Stadium) :
    jGet "renovations" (Stadium.entries s)
      = s.renovations.map (fun l => .arr (l.map DateOr.toJson)) := by
  simp [Stadium.entries, jGet_append, jGet_optEnt_self, jGet_optEnt_ne,
    some_orElse_j, none_orElse_j, orElse_none_j]

theorem jget_s_designer (s : Stadium) :
    jGet "designer" (Stadium.entries s) = s.designer.map .str := by
  simp [Stadium.entries, jGet_append, jGet_optEnt_self, jGet_optEnt_ne,
    some_orElse_j, none_orElse_j, orElse_none_j]

theorem jget_s_structural_engineer (s : Stadium) :
    jGet "structural_engineer" (Stadium.entries s)
      = s.structuralEngineer.map .str := by
  simp [Stadium.entries, jGet_append, jGet_optEnt_self, jGet_optEnt_ne,
    some_orElse_j, none_orElse_j, orElse_none_j]

theorem jget_s_contractor (s : Stadium) :
    jGet "contractor" (Stadium.entries s) = s.contractor.map .str := by
  simp [Stadium.entries, jGet_append, jGet_optEnt_self, jGet_optEnt_ne,
    some_orElse_j, none_orElse_j, orElse_none_j]

theorem jget_s_investor (s : Stadium) :
    jGet "investor" (Stadium.entries s) = s.investor.map .str := by
  simp [Stadium.entries, jGet_append, jGet_optEnt_self, jGet_optEnt_ne,
    some_orElse_j, none_orElse_j, orElse_none_j]

theorem jget_s_note (s : Stadium) :
    jGet "note" (Stadium.entries s) = s.note.map .str := by
  simp [Stadium.entries, jGet_append, jGet_optEnt_self, jGet_optEnt_ne,
    some_orElse_j, none_orElse_j, orElse_none_j]

theorem jget_s_track_length (s : Stadium) :
    jGet "track_length_metres" (Stadium.entries s)
      = s.trackLengthMetres.map .num := by
  simp [Stadium.entries, jGet_append, jGet_optEnt_self, jGet_optEnt_ne,
    some_orElse_j, none_orElse_j, orElse_none_j]

theorem jget_s_description (s : Stadium) :
    jGet "description" (Stadium.entries s) = s.description.map .str := by
  simp [Stadium.entries, jGet_append, jGet_optEnt_self, jGet_optEnt_ne,
    some_orElse_j, none_orElse_j, orElse_none_j]

/-- `fromJsonD` applied to the serialized dict of `s`: the six trailing
fields decode back to the corresponding fields of `s`. -/
theorem fromJsonD_entries (s : Stadium)
    (hse : ∀ x ∈ s.structuralEngineer, dateFromIso x = none)
    (hco : ∀ x ∈ s.contractor, dateFromIso x = none)
    (hiv : ∀ x ∈ s.investor, dateFromIso x = none)
    (hno : ∀ x ∈ s.note, dateFromIso x = none)
    (hde : ∀ x ∈ s.description, dateFromIso x = none)
    (name url country : String) (town : TownV) (clubs : List String)
    (league : League) (capacity : Int)
    (capacityDetails : Option (List SubCapacity)) (address : Option String)
    (otherNames : Option (List NameV)) (floodlightsLux recordAttendance : Option Int)
    (recordAttendanceDetails : Option String) (cost : Option Cost)
    (design construction : Option DateOr) (inauguration : Option PyDate)
    (inaugurationDetails : Option String) (renovations : Option (List DateOr))
    (designer : Option String) :
    Stadium.fromJsonD (Stadium.entries s) name url country town clubs league
      capacity capacityDetails address otherNames floodlightsLux
      recordAttendance recordAttendanceDetails cost design construction
      inauguration inaugurationDetails renovations designer
    = some ⟨name, url, country, town, clubs, league, capacity, capacityDetails,
        address, otherNames, floodlightsLux, recordAttendance,
        recordAttendanceDetails, cost, design, construction, inauguration,
        inaugurationDetails, renovations, designer, s.structuralEngineer,
        s.contractor, s.investor, s.note, s.trackLengthMetres,
        s.description⟩ := by
  simp only [Stadium.fromJsonD]
  rw [jget_s_structural_engineer, jget_s_contractor, jget_s_investor,
    jget_s_note, jget_s_track_length, jget_s_description]
  rw [decStrOpt_enc _ hse, decStrOpt_enc _ hco, decStrOpt_enc _ hiv,
    decStrOpt_enc _ hno, decIntOpt_enc, decStrOpt_enc _ hde]
  rfl

/-- `fromJsonC` applied to the serialized dict of `s`: the temporal fields
decode back to the corresponding fields of `s`. -/
theorem fromJsonC_entries (s : Stadium)
    (hid : ∀ x ∈ s.inaugurationDetails, dateFromIso x = none)
    (hdg : ∀ x ∈ s.designer, dateFromIso x = none)
    (hse : ∀ x ∈ s.structuralEngineer, dateFromIso x = none)
    (hco : ∀ x ∈ s.contractor, dateFromIso x = none)
    (hiv : ∀ x ∈ s.investor, dateFromIso x = none)
    (hno : ∀ x ∈ s.note, dateFromIso x = none)
    (hde : ∀ x ∈ s.description, dateFromIso x = none)
    (name url country : String) (town : TownV) (clubs : List String)
    (league : League) (capacity : Int)
    (capacityDetails : Option (List SubCapacity)) (address : Option String)
    (otherNames : Option (List NameV)) (floodlightsLux recordAttendance : Option Int)
    (recordAttendanceDetails : Option String) (cost : Option Cost) :
    Stadium.fromJsonC (Stadium.entries s) name url country town clubs league
      capacity capacityDetails address otherNames floodlightsLux
      recordAttendance recordAttendanceDetails cost
    = some ⟨name, url, country, town, clubs, league, capacity, capacityDetails,
        address, otherNames, floodlightsLux, recordAttendance,
        recordAttendanceDetails, cost, s.design, s.construction,
        s.inauguration, s.inaugurationDetails, s.renovations, s.designer,
        s.structuralEngineer, s.contractor, s.investor, s.note,
        s.trackLengthMetres, s.description⟩ := by
  simp only [Stadium.fromJsonC]
  rw [jget_s_design, jget_s_construction, jget_s_inauguration,
    jget_s_inauguration_details, jget_s_renovations, jget_s_designer]
  rw [decDateOrOpt_enc, decDateOrOpt_enc, decDateOpt_enc,
    decStrOpt_enc _ hid,
    decListOpt_enc DateOr.toJson decDateOrItem _ (fun _ _ x _ => decDateOrItem_enc x),
    decStrOpt_enc _ hdg]
  refine ((some_bind_j _ _).trans ?_)
  refine ((some_bind_j _ _).trans ?_)
  refine ((some_bind_j _ _).trans ?_)
  refine ((some_bind_j _ _).trans ?_)
  refine ((some_bind_j _ _).trans ?_)
  refine ((some_bind_j _ _).trans ?_)
  exact fromJsonD_entries s hse hco hiv hno hde name url country town clubs
    league capacity capacityDetails address otherNames floodlightsLux
    recordAttendance recordAttendanceDetails cost s.design s.construction
    s.inauguration s.inaugurationDetails s.renovations s.designer

/-- `fromJsonB` applied to the serialized dict of `s`: the optional middle
fields decode back to the corresponding fields of `s`. -/
theorem fromJsonB_entries (s : Stadium)
    (hcd : ∀ l, s.capacityDetails = some l →
      ∀ x ∈ l, decSubCapJ (SubCapacity.toJson x) = some x)
    (had : ∀ x ∈ s.address, dateFromIso x = none)
    (hon : ∀ l, s.otherNames = some l →
      ∀ x ∈ l, decNameV (NameV.toJson x) = some x)
    (hrd : ∀ x ∈ s.recordAttendanceDetails, dateFromIso x = none)
    (hct : costOkB s.cost = true)
    (hid : ∀ x ∈ s.inaugurationDetails, dateFromIso x = none)
    (hdg : ∀ x ∈ s.designer, dateFromIso x = none)
    (hse : ∀ x ∈ s.structuralEngineer, dateFromIso x = none)
    (hco : ∀ x ∈ s.contractor, dateFromIso x = none)
    (hiv : ∀ x ∈ s.investor, dateFromIso x = none)
    (hno : ∀ x ∈ s.note, dateFromIso x = none)
    (hde : ∀ x ∈ s.description, dateFromIso x = none)
    (name url country : String) (town : TownV) (clubs : List String)
    (league : League) (capacity : Int) :
    Stadium.fromJsonB (Stadium.entries s) name url country town clubs league
      capacity
    = some ⟨name, url, country, town, clubs, league, capacity,
        s.capacityDetails, s.address, s.otherNames, s.floodlightsLux,
        s.recordAttendance, s.recordAttendanceDetails, s.cost, s.design,
        s.construction, s.inauguration, s.inaugurationDetails, s.renovations,
        s.designer, s.structuralEngineer, s.contractor, s.investor, s.note,
        s.trackLengthMetres, s.description⟩ := by
  simp only [Stadium.fromJsonB]
  rw [jget_s_capacity_details, jget_s_address, jget_s_other_names,
    jget_s_floodlights, jget_s_record_attendance,
    jget_s_record_attendance_details, jget_s_cost]
  rw [decListOpt_enc SubCapacity.toJson decSubCapJ _ hcd,
    decStrOpt_enc _ had,
    decListOpt_enc NameV.toJson decNameV _ hon,
    decIntOpt_enc, decIntOpt_enc,
    decStrOpt_enc _ hrd,
    decCost_enc _ hct]
  refine ((some_bind_j _ _).trans ?_)
  refine ((some_bind_j _ _).trans ?_)
  refine ((some_bind_j _ _).trans ?_)
  refine ((some_bind_j _ _).trans ?_)
  refine ((some_bind_j _ _).trans ?_)
  refine ((some_bind_j _ _).trans ?_)
  refine ((some_bind_j _ _).trans ?_)
  exact fromJsonC_entries s hid hdg hse hco hiv hno hde name url country
    town clubs league capacity s.capacityDetails s.address s.otherNames
    s.floodlightsLux s.recordAttendance s.recordAttendanceDetails s.cost

/-- C4: the JSON projection omits `None` fields, serializes dates as
ISO-8601 strings, recursively projects nested structures, and `from_json`
is a left inverse of it: for every `Stadium` outside the field-collision
edge case (no string field anywhere in the record is itself an ISO-date-like
string, which `_deserialize_dates` would turn into a `date`),
`Stadium.from_json (s.json) = s`. -/
theorem stadium_json_roundtrip (s : Stadium) (h : stadiumStringsOk s = true) :
    Stadium.fromJson (Stadium.toJson s) = some s := by
  simp only [stadiumStringsOk, Bool.and_eq_true] at h
  obtain ⟨⟨⟨⟨⟨⟨⟨⟨⟨⟨⟨⟨⟨⟨⟨⟨⟨h1, h2⟩, h3⟩, h4⟩, h5⟩, h6⟩, h7⟩, h8⟩, h9⟩, h10⟩,
    h11⟩, h12⟩, h13⟩, h14⟩, h15⟩, h16⟩, h17⟩, h18⟩ := h
  have hcd : ∀ l, s.capacityDetails = some l →
      ∀ x ∈ l, decSubCapJ (SubCapacity.toJson x) = some x := by
    intro l hl x hx
    apply decSubCapJ_enc
    have h' := h7
    rw [hl] at h'
    simp only [listOkB] at h'
    rw [List.all_eq_true] at h'
    simpa using h' x hx
  have hon : ∀ l, s.otherNames = some l →
      ∀ x ∈ l, decNameV (NameV.toJson x) = some x := by
    intro l hl x hx
    apply decNameV_enc
    have h' := h9
    rw [hl] at h'
    simp only [listOkB] at h'
    rw [List.all_eq_true] at h'
    simpa using h' x hx
  simp only [Stadium.toJson, Stadium.fromJson]
  rw [jget_s_name, jget_s_url, jget_s_country, jget_s_town, jget_s_clubs,
    jget_s_league, jget_s_capacity]
  rw [decStr_enc _ (strOkB_none h1), decStr_enc _ (strOkB_none h2),
    decStr_enc _ (strOkB_none h3), decTownV_enc _ h4, decClubs_enc _ h5,
    decLeague_enc _ h6]
  refine ((some_bind_j _ _).trans ?_)
  refine ((some_bind_j _ _).trans ?_)
  refine ((some_bind_j _ _).trans ?_)
  refine ((some_bind_j _ _).trans ?_)
  refine ((some_bind_j _ _).trans ?_)
  refine ((some_bind_j _ _).trans ?_)
  refine ((some_bind_j _ _).trans ?_)
  exact fromJsonB_entries s hcd (strOptOkB_forall h8) hon
    (strOptOkB_forall h10) h11 (strOptOkB_forall h12)
    (strOptOkB_forall h13) (strOptOkB_forall h14) (strOptOkB_forall h15)
    (strOptOkB_forall h16) (strOptOkB_forall h17) (strOptOkB_forall h18)
    s.name s.url s.country s.town s.clubs s.league s.capacity

/-- A concrete record exercising every nested structure (for the C4
witness). -/
def witnessStadium : Stadium :=
  { bareStadium with
    town := TownV.town ⟨"Poznań", "poznański", "wielkopolskie", 500000, some 26000⟩
    clubs := ["Lech Poznań"]
    capacityDetails := some [⟨1000, some "North", some "stand"⟩]
    address := some "Main St 1"
    otherNames := some [NameV.plain "Arena",
      NameV.nick ⟨"Old", some (.dur ⟨⟨1960, 1, 1, by decide⟩, ⟨1975, 1, 1, by decide⟩⟩)⟩]
    floodlightsLux := some 1400
    cost := some ⟨45000000, some "€"⟩
    design := some (.d ⟨1990, 2, 3, by decide⟩)
    construction := some (.dur ⟨⟨1991, 1, 1, by decide⟩, ⟨1995, 1, 1, by decide⟩⟩)
    inauguration := some ⟨1995, 7, 20, by decide⟩
    renovations := some [.d ⟨2010, 1, 1, by decide⟩,
      .dur ⟨⟨2015, 1, 1, by decide⟩, ⟨2016, 1, 1, by decide⟩⟩]
    note := some "nice" }

/-- Witness for `stadium_json_roundtrip` at `witnessStadium`. -/
theorem stadium_json_roundtrip_witness :
    stadiumStringsOk witnessStadium = true ∧
      Stadium.fromJson (Stadium.toJson witnessStadium) = some witnessStadium :=
  ⟨by decide, stadium_json_roundtrip witnessStadium (by decide)⟩

end Pilka
